import Mathlib

/-!
Verification of the fuel-report processing core of `python/processor.py`
(whatsapp-fuel-extractor).

The development shallowly embeds the data model and the operations of the
extraction/validation pipeline:

* the per-vehicle last-state store (`car_last_update.json`),
  the pending-approval store (`pending_approvals.json`), the
  validation-error store (`validation_errors.json`) and the output
  workbook rows are modelled as Lean lists inside a `St` record;
* Python values that the code feeds to `float(str(v).replace(',', ''))`
  are abstracted by `PyNum` (their truthiness plus the result of that
  conversion, `none` when it raises `ValueError`);  floats are modelled
  by exact rationals;
* timestamps are epoch seconds (`Int`); `datetime.now()` is passed in as
  a `now` argument, `uuid.uuid4()[:8]` as a `freshId` argument;
* the distinct error/notification message templates are modelled by the
  inductive `IssueMsg` (the concrete formatted text is presentation
  only and is not modelled).
-/

/-- Abstraction of a Python value stored in a record field at the point
where the code evaluates `float(str(v).replace(',', ''))`:
`truthy` is the Python truthiness of the value, and `parseF` is the result
of the conversion (`none` when it raises `ValueError`). -/
structure PyNum where
  truthy : Bool
  parseF : Option ℚ
deriving DecidableEq, Repr

/-- Python `int(q)` applied to a float: truncation toward zero. -/
def pyInt (q : ℚ) : Int := if 0 ≤ q then ⌊q⌋ else -⌊-q⌋

/-- The result of `int(float(str(v).replace(',', '')))`. -/
def PyNum.parseI (v : PyNum) : Option Int := v.parseF.map pyInt

/-- The record dict built by `process_message_file` (and stored as a row of
the output workbook by `ExcelExporter.append_record`; the `datetime` and
`raw_message` columns are not read back by any modelled operation and are
omitted). -/
structure FuelRec where
  car : String
  driver : String
  department : String
  ftype : String
  odometer : PyNum
  liters : PyNum
  amount : PyNum
  sender : String
  senderPhone : String
deriving DecidableEq, Repr

/-- Python `\s` for the ASCII range (the messages are ASCII). -/
def isPyWs (c : Char) : Bool :=
  c == ' ' || c == '\t' || c == '\n' || c == '\r' || c == '\x0b' || c == '\x0c'

/-- `normalize_plate`: `re.sub(r'\s+', '', str(plate)).upper()`. -/
def normalize_plate (p : String) : String :=
  ((p.toList.filter (fun c => !isPyWs c)).map Char.toUpper).asString

/-- The plate normalization used inside `get_last_odometer_for_car` and
`update_record`: `car_plate.upper().replace(' ', '')` (spaces only). -/
def normSpaceUpper (p : String) : String :=
  ((p.toList.map Char.toUpper).filter (fun c => c != ' ')).asString

/-- One entry of the `car_last_update.json` store (`VehicleLastState`).
`timestampP` is the ISO timestamp as parsed by `datetime.fromisoformat`,
in epoch seconds; `none` models a missing, empty or unparseable
timestamp string. -/
structure LastState where
  timestampP : Option Int
  driver : String
  liters : PyNum
  amount : PyNum
  odometer : PyNum
  ftype : String
  department : String
  efficiency : Option ℚ
deriving DecidableEq, Repr

/-- The efficiency alert dict built by `calculate_fuel_efficiency`
(the formatted `message` field is presentation only and is omitted). -/
structure Alert where
  atype : String
  severity : String
  efficiency : ℚ
  distance : Int
  liters : ℚ
deriving DecidableEq, Repr

/-- The distinct message templates passed to `save_validation_error`
by the modelled operations (the formatted text is presentation only). -/
inductive IssueMsg where
  | odometerRegression (newOdo lastOdo : Int)
  | cooldownApproval (approvalId : String)
  | efficiencyAlert (alert : Alert)
deriving DecidableEq, Repr

/-- One entry of the `validation_errors.json` store. -/
structure VError where
  timestamp : Int
  car : String
  driver : String
  issue : IssueMsg
  senderPhone : String
  isApprovalRequest : Bool
  notified : Bool
deriving DecidableEq, Repr

/-- One entry of the `pending_approvals.json` store (`PendingApproval`).
The `reason` of a cooldown approval is a formatted string in the source;
only its presence is modelled. -/
structure Approval where
  id : String
  atype : String
  timestamp : Int
  record : FuelRec
  originalRecord : Option LastState
  reason : String
  status : String
  notified : Bool
  approvedAt : Option Int
  rejectedAt : Option Int
deriving DecidableEq, Repr

/-- One entry of the `efficiency_history.json` store.  (The source rounds
`efficiency` and `liters` to two decimals for display before storing; the
exact values are kept here, no modelled operation reads them back.) -/
structure EffRec where
  timestamp : Int
  car : String
  driver : String
  efficiency : ℚ
  distance : Int
  liters : ℚ
deriving DecidableEq, Repr

/-- Python `l[-n:]`. -/
def lastN (n : Nat) (l : List α) : List α := l.drop (l.length - n)

/-- `save_validation_error`: append an error entry and trim the store to
its last 1000 entries. -/
def save_validation_error (now : Int) (errors : List VError)
    (car driver : String) (issue : IssueMsg) (senderPhone : String)
    (isApprovalRequest : Bool) : List VError :=
  let e : VError := ⟨now, car, driver, issue, senderPhone, isApprovalRequest, false⟩
  let es := errors ++ [e]
  if 1000 < es.length then lastN 1000 es else es

/-- The approval entry built by `save_pending_approval`. -/
def mkPendingApproval (now : Int) (freshId : String) (atype : String)
    (record : FuelRec) (originalRecord : Option LastState) (reason : String) :
    Approval :=
  ⟨freshId, atype, now, record, originalRecord, reason, "pending", false, none, none⟩

/-- `save_pending_approval`: append a pending entry; once the store holds
more than 500 entries, keep every pending entry plus the last 300
non-pending ones. -/
def save_pending_approval (now : Int) (freshId : String)
    (approvals : List Approval) (atype : String) (record : FuelRec)
    (originalRecord : Option LastState) (reason : String) :
    String × List Approval :=
  let ap := mkPendingApproval now freshId atype record originalRecord reason
  let l1 := approvals ++ [ap]
  let l2 :=
    if 500 < l1.length then
      l1.filter (fun a => a.status == "pending") ++
        lastN 300 (l1.filter (fun a => a.status != "pending"))
    else l1
  (freshId, l2)

/-- `get_pending_approvals`. -/
def get_pending_approvals (approvals : List Approval) : List Approval :=
  approvals.filter (fun a => a.status == "pending")

/-- Result messages of `approve_pending` / `reject_pending`
(formatted strings in the source). -/
inductive AMsg where
  | noPending
  | alreadyProcessed (id : String)
  | approvedOk (id : String)
  | rejectedOk (id : String)
  | notFound (id : String)
deriving DecidableEq, Repr

/-- The in-place update performed by `approve_pending` on the first
entry with the given id. -/
def updFirstApproved (now : Int) (aid : String) : List Approval → List Approval
  | [] => []
  | a :: rest =>
    if a.id == aid then { a with status := "approved", approvedAt := some now } :: rest
    else a :: updFirstApproved now aid rest

/-- The in-place update performed by `reject_pending` on the first
entry with the given id. -/
def updFirstRejected (now : Int) (aid : String) : List Approval → List Approval
  | [] => []
  | a :: rest =>
    if a.id == aid then { a with status := "rejected", rejectedAt := some now } :: rest
    else a :: updFirstRejected now aid rest

/-- `approve_pending`: returns (success, message, record) and the store
contents after the call (the store file is only rewritten on success). -/
def approve_pending (now : Int) (approvals : List Approval) (aid : String) :
    Bool × AMsg × Option FuelRec × List Approval :=
  if approvals.isEmpty then (false, .noPending, none, approvals)
  else
    match approvals.find? (fun a => a.id == aid) with
    | none => (false, .notFound aid, none, approvals)
    | some a =>
      if a.status != "pending" then (false, .alreadyProcessed aid, none, approvals)
      else (true, .approvedOk aid, some a.record, updFirstApproved now aid approvals)

/-- `reject_pending`: returns (success, message) and the store contents
after the call. -/
def reject_pending (now : Int) (approvals : List Approval) (aid : String) :
    Bool × AMsg × List Approval :=
  if approvals.isEmpty then (false, .noPending, approvals)
  else
    match approvals.find? (fun a => a.id == aid) with
    | none => (false, .notFound aid, approvals)
    | some a =>
      if a.status != "pending" then (false, .alreadyProcessed aid, approvals)
      else (true, .rejectedOk aid, updFirstRejected now aid approvals)

/-- Dict lookup in the `car_last_update.json` store. -/
def getAssoc (m : List (String × LastState)) (k : String) : Option LastState :=
  (m.find? (fun p => p.1 == k)).map Prod.snd

/-- Dict assignment in the `car_last_update.json` store. -/
def setAssoc (m : List (String × LastState)) (k : String) (v : LastState) :
    List (String × LastState) :=
  if (m.find? (fun p => p.1 == k)).isSome then
    m.map (fun p => if p.1 == k then (k, v) else p)
  else m ++ [(k, v)]

/-- `get_car_last_update`. -/
def get_car_last_update (m : List (String × LastState)) (carPlate : String) :
    Option LastState :=
  getAssoc m (normalize_plate carPlate)

/-- `update_car_last_update`: overwrite the last-state entry of the plate
with the values of the accepted record (timestamped with `now`, which is
an ISO string in the source, hence parseable: `timestampP = some now`). -/
def update_car_last_update (now : Int) (m : List (String × LastState))
    (carPlate : String) (record : FuelRec) (efficiency : Option ℚ) :
    List (String × LastState) :=
  setAssoc m (normalize_plate carPlate)
    ⟨some now, record.driver, record.liters, record.amount, record.odometer,
     record.ftype, record.department, efficiency⟩

/-- `EFFICIENCY_ALERT_LOW` (km per liter). -/
def EFFICIENCY_ALERT_LOW : ℚ := 4

/-- `EFFICIENCY_ALERT_HIGH` (km per liter). -/
def EFFICIENCY_ALERT_HIGH : ℚ := 20

/-- `CAR_COOLDOWN_HOURS`. -/
def CAR_COOLDOWN_HOURS : Int := 12

/-- `calculate_fuel_efficiency`: previous odometer and liters are read from
the last-state store with `int(float(...))` / `float(...)`; a conversion
error, a missing entry, a non-positive or non-increasing odometer or
non-positive previous liters all yield `(none, none)`.  Note the source
never uses `current_liters` in the computation: efficiency is distance
divided by the liters of the previous fill-up. -/
def calculate_fuel_efficiency (m : List (String × LastState)) (carPlate : String)
    (currentOdometer : Int) (_currentLiters : ℚ) : Option ℚ × Option Alert :=
  match get_car_last_update m carPlate with
  | none => (none, none)
  | some last =>
    match last.odometer.parseI, last.liters.parseF with
    | some prevOdo, some prevLiters =>
      if prevOdo ≤ 0 ∨ currentOdometer ≤ prevOdo then (none, none)
      else
        let distance := currentOdometer - prevOdo
        if prevLiters ≤ 0 then (none, none)
        else
          let efficiency := (distance : ℚ) / prevLiters
          let alert : Option Alert :=
            if efficiency < EFFICIENCY_ALERT_LOW then
              some ⟨"low_efficiency", "warning", efficiency, distance, prevLiters⟩
            else if EFFICIENCY_ALERT_HIGH < efficiency then
              some ⟨"high_efficiency", "warning", efficiency, distance, prevLiters⟩
            else none
          (some efficiency, alert)
    | _, _ => (none, none)

/-- The mutable stores of the pipeline:
output workbook rows, `car_last_update.json`, `pending_approvals.json`,
`validation_errors.json`, `efficiency_history.json`, and the number of
queued WhatsApp confirmations (their text is presentation only). -/
structure St where
  rows : List FuelRec
  lastUpdates : List (String × LastState)
  approvals : List Approval
  verrors : List VError
  effHistory : List EffRec
  confirmations : Nat
deriving DecidableEq, Repr

/-- `check_car_cooldown`: if the plate has a last-state entry whose
timestamp parses and lies less than 12 hours in the past, create a
`car_cooldown` pending approval and an admin-directed notification and
block auto-acceptance; a missing entry or an unparseable timestamp
(`datetime.fromisoformat` raises, caught by the bare `except`) passes. -/
def check_car_cooldown (now : Int) (freshId : String) (st : St)
    (carPlate : String) (record : FuelRec) : St × Bool × Option String :=
  match get_car_last_update st.lastUpdates carPlate with
  | none => (st, true, none)
  | some last =>
    match last.timestampP with
    | none => (st, true, none)
    | some t =>
      if now - t < CAR_COOLDOWN_HOURS * 3600 then
        let r := save_pending_approval now freshId st.approvals "car_cooldown"
          record (some last) "car_cooldown"
        let verrors' := save_validation_error now st.verrors carPlate
          record.driver (.cooldownApproval r.1) record.senderPhone true
        ({ st with approvals := r.2, verrors := verrors' }, false, some r.1)
      else (st, true, none)

/-- `ExcelExporter.get_last_odometer_for_car`: scan the workbook rows and
keep the last parseable, truthy odometer value of the plate. -/
def get_last_odometer_for_car (rows : List FuelRec) (carPlate : String) :
    Option Int :=
  rows.foldl
    (fun acc row =>
      if normSpaceUpper row.car == normSpaceUpper carPlate && row.odometer.truthy then
        match row.odometer.parseI with
        | some v => some v
        | none => acc
      else acc)
    none

/-- `ExcelExporter.validate_odometer`: a zero reading is not validated
(`if not new_odometer`); otherwise the reading must be strictly greater
than the last recorded one, else a sender-directed validation error is
saved and the reading is rejected. -/
def validate_odometer (now : Int) (verrors : List VError) (rows : List FuelRec)
    (carPlate : String) (newOdometer : Int) (driver senderPhone : String) :
    Bool × Option IssueMsg × List VError :=
  if newOdometer = 0 then (true, none, verrors)
  else
    match get_last_odometer_for_car rows carPlate with
    | none => (true, none, verrors)
    | some lastOdo =>
      if newOdometer ≤ lastOdo then
        (false, some (.odometerRegression newOdometer lastOdo),
         save_validation_error now verrors carPlate driver
           (.odometerRegression newOdometer lastOdo) senderPhone false)
      else (true, none, verrors)

/-- `ExcelExporter.append_record`: odometer validation runs only when the
flag is set and both the odometer value and the plate are truthy; a
`ValueError` in the odometer conversion skips validation.  On success the
record is appended as a new workbook row. -/
def append_record (now : Int) (st : St) (record : FuelRec) (validate : Bool) :
    St × Bool × Option IssueMsg :=
  if validate && record.odometer.truthy && record.car != "" then
    match record.odometer.parseI with
    | some odoInt =>
      match validate_odometer now st.verrors st.rows record.car odoInt
          record.driver record.senderPhone with
      | (true, _, verrs) => ({ st with rows := st.rows ++ [record], verrors := verrs }, true, none)
      | (false, msg, verrs) => ({ st with verrors := verrs }, false, msg)
    | none => ({ st with rows := st.rows ++ [record] }, true, none)
  else ({ st with rows := st.rows ++ [record] }, true, none)

/-- `save_efficiency_record`: append to the efficiency history and trim to
the last 5000 entries. -/
def save_efficiency_record (now : Int) (history : List EffRec)
    (carPlate driver : String) (efficiency : ℚ) (distance : Int) (liters : ℚ) :
    List EffRec :=
  let h := history ++ [⟨now, normalize_plate carPlate, driver, efficiency, distance, liters⟩]
  if 5000 < h.length then lastN 5000 h else h

/-- `save_efficiency_alert`: an admin-directed (`is_approval_request=True`)
validation-error notification carrying the alert. -/
def save_efficiency_alert (now : Int) (verrors : List VError)
    (carPlate driver : String) (alert : Alert) : List VError :=
  save_validation_error now verrors carPlate driver (.efficiencyAlert alert) "" true

/-- The efficiency try-block of `process_message_file` (run after a
successful append).  Returns the `efficiency` and `distance` local
variables as left behind by the block (a conversion `ValueError` aborts
the rest of the block, including the alert notification, but already
assigned variables survive) together with the updated stores. -/
def process_record_eff (now : Int) (st2 : St) (record : FuelRec) :
    Option ℚ × Option Int × St :=
  match record.odometer.parseI, record.liters.parseF with
  | some curOdo, some curLit =>
    if 0 < curOdo ∧ 0 < curLit then
      match calculate_fuel_efficiency st2.lastUpdates record.car curOdo curLit with
      | (someEff, alertOpt) =>
        match someEff with
        | some eff =>
          match get_car_last_update st2.lastUpdates record.car with
          | some last =>
            match last.odometer.parseI with
            | some prevOdo =>
              let distance := curOdo - prevOdo
              match last.liters.parseF with
              | some prevLit =>
                let h := save_efficiency_record now st2.effHistory record.car
                  record.driver eff distance prevLit
                let st' := { st2 with effHistory := h }
                let st'' :=
                  match alertOpt with
                  | some al =>
                    let v := save_efficiency_alert now st'.verrors record.car record.driver al
                    { st' with verrors := v }
                  | none => st'
                (some eff, some distance, st'')
              | none => (some eff, some distance, st2)
            | none => (some eff, none, st2)
          | none =>
            let st'' :=
              match alertOpt with
              | some al =>
                let v := save_efficiency_alert now st2.verrors record.car record.driver al
                { st2 with verrors := v }
              | none => st2
            (some eff, none, st'')
        | none =>
          let st'' :=
            match alertOpt with
            | some al =>
              let v := save_efficiency_alert now st2.verrors record.car record.driver al
              { st2 with verrors := v }
            | none => st2
          (none, none, st'')
    else (none, none, st2)
  | _, _ => (none, none, st2)

/-- The acceptance path of `process_message_file` for a record that has
already passed the required-field and fleet-whitelist checks (its `car`
field holds the normalized plate): cooldown gate (skipped for
admin-approved records), workbook append with odometer validation, the
efficiency block, last-state overwrite and confirmation.  The returned
flag tells whether the record was accepted and persisted. -/
def process_record (now : Int) (freshId : String) (st : St) (record : FuelRec)
    (isApproved : Bool) : St × Bool :=
  match (if isApproved then (st, true, none)
         else check_car_cooldown now freshId st record.car record) with
  | (st1, false, _) => (st1, false)
  | (st1, true, _) =>
    match append_record now st1 record true with
    | (st2, false, _) => (st2, false)
    | (st2, true, _) =>
      match process_record_eff now st2 record with
      | (effOpt, _distOpt, st3) =>
        let lu := update_car_last_update now st3.lastUpdates record.car record effOpt
        ({ st3 with lastUpdates := lu, confirmations := st3.confirmations + 1 }, true)


/-! ### The message parser (`FuelReportParser`)

`FuelReportParser.parse` extracts fields with `re.search` over a table of
regular expressions compiled with `re.IGNORECASE | re.MULTILINE`.  The
patterns use only: literals, the classes `.` `\s` `\d` `[A-Z]` `[\d,\.]`
`[:\-=]`, concatenation, alternation, `?`, greedy `*` `+` `{m,n}` and lazy
`+?` (each repetition in the table applies to a single character class),
one capturing group per pattern, lookahead `(?=…)`, `$` (multiline) and
`\b`.  The embedding interprets exactly these constructs with Python's
backtracking semantics: outcome lists are ordered by the engine's
preference (leftmost position first, then alternation order, greedy
longest-first, lazy shortest-first), and `re.search` yields the head. -/

/-- The character classes appearing in the patterns, with `re.IGNORECASE`
semantics for `[A-Z]` (the messages are ASCII). -/
inductive RChar where
  | any
  | ws
  | digit
  | alphaU
  | numCls
  | sepCls
deriving DecidableEq, Repr

/-- Class membership.  `.` does not match a newline (no `re.DOTALL`). -/
def matchC : RChar → Char → Bool
  | .any, c => c != '\n'
  | .ws, c => isPyWs c
  | .digit, c => c.isDigit
  | .alphaU, c => c.isAlpha
  | .numCls, c => c.isDigit || c == ',' || c == '.'
  | .sepCls, c => c == ':' || c == '-' || c == '='

/-- The regular-expression fragment used by the pattern table.
`reps` is `k{lo,hi}` over a single class (`hi = none` means unbounded),
lazy or greedy; `opt` is greedy `?` over a subexpression; `grp` is the
single capturing group; `look` is `(?=…)`; `eolM` is `$` under
`re.MULTILINE`, `eolN` is `$` without it; `wb` is `\b`. -/
inductive Rx where
  | eps
  | cc (k : RChar)
  | str (lit : List Char)
  | seq (a b : Rx)
  | alt (a b : Rx)
  | opt (a : Rx)
  | reps (k : RChar) (lo : Nat) (hi : Option Nat) (lazy : Bool)
  | grp (a : Rx)
  | look (a : Rx)
  | eolM
  | eolN
  | wb
deriving DecidableEq, Repr

/-- Case-insensitive character comparison (ASCII case folding, per
`re.IGNORECASE` on ASCII input). -/
def ciEq (a b : Char) : Bool := a.toUpper == b.toUpper

/-- Case-insensitive prefix test. -/
def ciPfx : List Char → List Char → Bool
  | [], _ => true
  | _ :: _, [] => false
  | a :: as, b :: bs => ciEq a b && ciPfx as bs

/-- Python `\w` (ASCII). -/
def isWordC (c : Char) : Bool := c.isAlpha || c.isDigit || c == '_'

/-- Word-boundary test given the previous character and the rest of the
input. -/
def wbHolds (prev : Option Char) (s : List Char) : Bool :=
  let l := match prev with
    | some c => isWordC c
    | none => false
  let r := match s with
    | c :: _ => isWordC c
    | [] => false
  l != r

/-- One outcome of matching a fragment at a position: the remaining
suffix, the consumed text (in original case) and the group-1 capture. -/
structure MOut where
  rem : List Char
  eaten : List Char
  cap : Option (List Char)
deriving DecidableEq, Repr

/-- The previous character after consuming `eaten`. -/
def lastOr (eaten : List Char) (prev : Option Char) : Option Char :=
  match eaten.getLast? with
  | some c => some c
  | none => prev

/-- All ways of consuming a run of class `k`, shortest first, of length at
most `hi`: each entry is (consumed, remaining). -/
def repSplits (k : RChar) : List Char → Option Nat → List (List Char × List Char)
  | [], _ => [([], [])]
  | c :: cs, hi =>
    if hi == some 0 then [([], c :: cs)]
    else if matchC k c then
      ([], c :: cs) ::
        (repSplits k cs (hi.map (fun n => n - 1))).map (fun p => (c :: p.1, p.2))
    else [([], c :: cs)]

/-- Outcomes of `k{lo,hi}`: the admissible run lengths, ordered shortest
first when lazy and longest first when greedy. -/
def repsOutcomes (k : RChar) (lo : Nat) (hi : Option Nat) (lazy : Bool)
    (s : List Char) : List MOut :=
  let splits := repSplits k s hi
  ((if lazy then splits else splits.reverse).filter
      (fun p => lo ≤ p.1.length)).map (fun p => ⟨p.2, p.1, none⟩)

/-- All outcomes of matching `r` at the start of `s` (with `prev` the
character before the position, for `\b`), in the backtracking engine's
preference order: Python's match is the head of this list. -/
def mAll : Rx → Option Char → List Char → List MOut
  | .eps, _, s => [⟨s, [], none⟩]
  | .cc k, _, s =>
    match s with
    | c :: cs => if matchC k c then [⟨cs, [c], none⟩] else []
    | [] => []
  | .str lit, _, s =>
    if ciPfx lit s then [⟨s.drop lit.length, s.take lit.length, none⟩] else []
  | .seq a b, prev, s =>
    (mAll a prev s).flatMap (fun o =>
      (mAll b (lastOr o.eaten prev) o.rem).map (fun o2 =>
        ⟨o2.rem, o.eaten ++ o2.eaten, o2.cap.or o.cap⟩))
  | .alt a b, prev, s => mAll a prev s ++ mAll b prev s
  | .opt a, prev, s => mAll a prev s ++ [⟨s, [], none⟩]
  | .reps k lo hi lz, _, s => repsOutcomes k lo hi lz s
  | .grp a, prev, s => (mAll a prev s).map (fun o => ⟨o.rem, o.eaten, some o.eaten⟩)
  | .look a, prev, s =>
    match mAll a prev s with
    | [] => []
    | _ :: _ => [⟨s, [], none⟩]
  | .eolM, _, s =>
    match s with
    | [] => [⟨[], [], none⟩]
    | c :: cs => if c == '\n' then [⟨c :: cs, [], none⟩] else []
  | .eolN, _, s =>
    match s with
    | [] => [⟨[], [], none⟩]
    | '\n' :: [] => [⟨['\n'], [], none⟩]
    | _ => []
  | .wb, prev, s => if wbHolds prev s then [⟨s, [], none⟩] else []

/-- `re.search`: try each start position from the left; at the first
position where the pattern matches, return the group-1 capture of the
preferred match.  (Every pattern in the table has a mandatory group 1, so
a match always carries a capture; a hypothetical group-less match is
reported as an empty capture.) -/
def searchAux (p : Rx) : Option Char → List Char → Option (List Char)
  | prev, [] =>
    match mAll p prev [] with
    | o :: _ => some (o.cap.getD [])
    | [] => none
  | prev, c :: cs =>
    match mAll p prev (c :: cs) with
    | o :: _ => some (o.cap.getD [])
    | [] => searchAux p (some c) cs

/-- `re.search` from the start of the text. -/
def reSearch (p : Rx) (s : List Char) : Option (List Char) := searchAux p none s

/-- Python `str.upper` (ASCII). -/
def upperL (l : List Char) : List Char := l.map Char.toUpper

/-- Python `str.strip` (whitespace). -/
def stripL (l : List Char) : List Char :=
  ((l.dropWhile isPyWs).reverse.dropWhile isPyWs).reverse

/-- `re.sub(r'\s+', ' ', text)`: collapse every whitespace run into one
space (the flag records whether the previous character was whitespace). -/
def collapseWsAux : Bool → List Char → List Char
  | _, [] => []
  | inWs, c :: cs =>
    if isPyWs c then
      if inWs then collapseWsAux true cs else ' ' :: collapseWsAux true cs
    else c :: collapseWsAux false cs

/-- `re.sub(r'\s+', ' ', text)`. -/
def collapseWs (l : List Char) : List Char := collapseWsAux false l

/-- `text.replace('\r\n', '\n')`. -/
def replaceCRLF : List Char → List Char
  | '\r' :: '\n' :: cs => '\n' :: replaceCRLF cs
  | c :: cs => c :: replaceCRLF cs
  | [] => []

/-- `text.replace('\r', '\n')`. -/
def replaceCR (l : List Char) : List Char :=
  l.map (fun c => if c == '\r' then '\n' else c)

/-- Literal keyword (matched case-insensitively). -/
def lits (s : String) : Rx := .str s.toList

/-- `\s*`. -/
def ws0 : Rx := .reps .ws 0 none false

/-- `[:\-=]`. -/
def sep1 : Rx := .cc .sepCls

/-- `(.+?)` — the lazy value capture of the driver/department patterns. -/
def lazyDotPlus : Rx := .reps .any 1 none true

/-- `([\d,\.]+)` body. -/
def numPlus : Rx := .reps .numCls 1 none false

/-- `KEYWORD\s*[:\-=]\s*REST`. -/
def kwPat (kw : String) (rest : Rx) : Rx :=
  .seq (lits kw) (.seq ws0 (.seq sep1 (.seq ws0 rest)))

/-- `(?=\n|CAR|LITERS|LITRES|AMOUNT|TYPE|ODOMETER|$)` — the stop
lookahead of the driver patterns. -/
def stopDriver : Rx :=
  .look (.alt (.str ['\n']) (.alt (lits "CAR") (.alt (lits "LITERS")
    (.alt (lits "LITRES") (.alt (lits "AMOUNT") (.alt (lits "TYPE")
      (.alt (lits "ODOMETER") .eolM)))))))

/-- `(?=\n|DRIVER|CAR|LITERS|LITRES|AMOUNT|TYPE|ODOMETER|$)` — the stop
lookahead of the department patterns. -/
def stopDept : Rx :=
  .look (.alt (.str ['\n']) (.alt (lits "DRIVER") (.alt (lits "CAR")
    (.alt (lits "LITERS") (.alt (lits "LITRES") (.alt (lits "AMOUNT")
      (.alt (lits "TYPE") (.alt (lits "ODOMETER") .eolM))))))))

/-- The `driver` pattern list. -/
def driverPats : List Rx :=
  [kwPat "DRIVER" (.seq (.grp lazyDotPlus) stopDriver),
   kwPat "JINA" (.seq (.grp lazyDotPlus) stopDriver),
   kwPat "NAME" (.seq (.grp lazyDotPlus) stopDriver)]

/-- `([A-Z]{2,4}\s*\d{2,4}\s*[A-Z]?)` — the plate capture. -/
def plateGrp : Rx :=
  .grp (.seq (.reps .alphaU 2 (some 4) false) (.seq ws0
    (.seq (.reps .digit 2 (some 4) false) (.seq ws0 (.reps .alphaU 0 (some 1) false)))))

/-- `(?=\s|$|\n|LITERS|LITRES|AMOUNT|TYPE|ODOMETER)`. -/
def stopCar1 : Rx :=
  .look (.alt (.cc .ws) (.alt .eolM (.alt (.str ['\n']) (.alt (lits "LITERS")
    (.alt (lits "LITRES") (.alt (lits "AMOUNT") (.alt (lits "TYPE")
      (lits "ODOMETER"))))))))

/-- `(?=\s|$|\n)`. -/
def stopCar2 : Rx := .look (.alt (.cc .ws) (.alt .eolM (.str ['\n'])))

/-- The `car` pattern list (the last entry is the bare-plate fallback
`\b([A-Z]{2,4}\s*\d{3,4}\s*[A-Z])\b`). -/
def carPats : List Rx :=
  [kwPat "CAR" (.seq plateGrp stopCar1),
   .seq (lits "REG") (.seq ws0 (.seq (.opt (lits "NO")) (.seq (.opt (.str ['.']))
     (.seq ws0 (.seq sep1 (.seq ws0 (.seq plateGrp stopCar2))))))),
   kwPat "VEHICLE" (.seq plateGrp stopCar2),
   kwPat "PLATE" (.seq plateGrp stopCar2),
   kwPat "GARI" (.seq plateGrp stopCar2),
   .seq .wb (.seq (.grp (.seq (.reps .alphaU 2 (some 4) false) (.seq ws0
     (.seq (.reps .digit 3 (some 4) false) (.seq ws0 (.cc .alphaU)))))) .wb)]

/-- The `liters` pattern list. -/
def litersPats : List Rx :=
  [.seq (lits "LITER") (.seq (.opt (.str ['S'])) (.seq ws0 (.seq sep1 (.seq ws0 (.grp numPlus))))),
   .seq (lits "LITRE") (.seq (.opt (.str ['S'])) (.seq ws0 (.seq sep1 (.seq ws0 (.grp numPlus))))),
   .seq (lits "LT") (.seq (.opt (.str ['R'])) (.seq (.opt (.str ['S']))
     (.seq ws0 (.seq sep1 (.seq ws0 (.grp numPlus)))))),
   kwPat "FUEL" (.seq (.grp numPlus) (.seq ws0 (.alt (.str ['L']) (lits "LTR")))),
   .seq (.grp numPlus) (.seq ws0 (.seq (.alt (.seq (lits "LITER") (.opt (.str ['S'])))
     (.alt (.seq (lits "LITRE") (.opt (.str ['S'])))
       (.seq (lits "LT") (.seq (.opt (.str ['R'])) (.opt (.str ['S'])))))) .wb))]

/-- `(?:KSH?\.?\s*)?` — the optional currency marker. -/
def optKsh : Rx :=
  .opt (.seq (lits "KS") (.seq (.opt (.str ['H'])) (.seq (.opt (.str ['.'])) ws0)))

/-- The `amount` pattern list. -/
def amountPats : List Rx :=
  [kwPat "AMOUNT" (.seq optKsh (.grp numPlus)),
   kwPat "COST" (.seq optKsh (.grp numPlus)),
   kwPat "PRICE" (.seq optKsh (.grp numPlus)),
   .seq (lits "KS") (.seq (.opt (.str ['H'])) (.seq (.opt (.str ['.']))
     (.seq ws0 (.seq (.opt sep1) (.seq ws0 (.grp numPlus)))))),
   kwPat "TOTAL" (.seq optKsh (.grp numPlus)),
   kwPat "PESA" (.grp numPlus)]

/-- `(DIESEL|PETROL|SUPER|V-?POWER|UNLEADED|AGO)`. -/
def fuelAlt : Rx :=
  .alt (lits "DIESEL") (.alt (lits "PETROL") (.alt (lits "SUPER")
    (.alt (.seq (lits "V") (.seq (.opt (.str ['-'])) (lits "POWER")))
      (.alt (lits "UNLEADED") (lits "AGO")))))

/-- The `type` pattern list. -/
def typePats : List Rx :=
  [kwPat "TYPE" (.grp fuelAlt),
   .seq (lits "FUEL") (.seq ws0 (.seq (lits "TYPE") (.seq ws0 (.seq sep1 (.seq ws0 (.grp fuelAlt)))))),
   .seq .wb (.seq (.grp fuelAlt) .wb)]

/-- The `odometer` pattern list. -/
def odometerPats : List Rx :=
  [kwPat "ODOMETER" (.grp numPlus),
   kwPat "ODO" (.grp numPlus),
   kwPat "KM" (.grp numPlus),
   kwPat "MILEAGE" (.grp numPlus),
   kwPat "READING" (.grp numPlus)]

/-- The `department` pattern list. -/
def departmentPats : List Rx :=
  [kwPat "DEPARTMENT" (.seq (.grp lazyDotPlus) stopDept),
   kwPat "DEPT" (.seq (.grp lazyDotPlus) stopDept),
   kwPat "SECTION" (.seq (.grp lazyDotPlus) stopDept)]

/-- `FuelReportParser._extract_field`: first matching pattern wins; the
capture is stripped. -/
def extractField (patterns : List Rx) (text : List Char) : Option (List Char) :=
  match patterns with
  | [] => none
  | p :: rest =>
    match reSearch p text with
    | some capt => some (stripL capt)
    | none => extractField rest text

/-- Digit-string value. -/
def digitsVal (l : List Char) : Nat :=
  l.foldl (fun acc c => acc * 10 + (c.toNat - '0'.toNat)) 0

/-- Python `float(s)` on the strings reachable here (digits and dots, as
matched by `[\d,\.]+` after comma removal): at least one digit and at most
one dot, else `ValueError` (`none`). -/
def pyFloatOpt (l : List Char) : Option ℚ :=
  if l.all (fun c => c.isDigit || c == '.') && l.any (fun c => c.isDigit) &&
      (l.filter (fun c => c == '.')).length ≤ 1 then
    some ((digitsVal (l.takeWhile (fun c => c != '.')) : ℚ) +
      (digitsVal ((l.dropWhile (fun c => c != '.')).drop 1) : ℚ) /
        (10 : ℚ) ^ ((l.dropWhile (fun c => c != '.')).drop 1).length)
  else none

/-- `_clean_value` for `driver`: collapse whitespace and title-case. -/
def titleAux : Bool → List Char → List Char
  | _, [] => []
  | prevAlpha, c :: cs =>
    if c.isAlpha then
      (if prevAlpha then c.toLower else c.toUpper) :: titleAux true cs
    else c :: titleAux false cs

/-- `' '.join(value.split())`. -/
def joinSplit (l : List Char) : List Char := collapseWs (stripL l)

/-- `_clean_value('driver', v)`. -/
def cleanDriver (v : List Char) : List Char := titleAux false (joinSplit (stripL v))

/-- `_clean_value('department', v)`. -/
def cleanDepartment (v : List Char) : List Char := upperL (joinSplit (stripL v))

/-- `_clean_value('car', v)`. -/
def cleanCar (v : List Char) : List Char := stripL (collapseWs (upperL (stripL v)))

/-- `_clean_value('liters', v)` / `_clean_value('amount', v)`: float, or
the original (stripped) string on `ValueError`. -/
def cleanNum (v : List Char) : Sum ℚ (List Char) :=
  match pyFloatOpt ((stripL v).filter (fun c => c != ',')) with
  | some q => Sum.inl q
  | none => Sum.inr (stripL v)

/-- `_clean_value('odometer', v)`. -/
def cleanOdometer (v : List Char) : Sum Int (List Char) :=
  match pyFloatOpt ((stripL v).filter (fun c => c != ',')) with
  | some q => Sum.inl (pyInt q)
  | none => Sum.inr (stripL v)

/-- `_clean_value('type', v)`: note that `replace('-', '-')` in the source
replaces a hyphen by a hyphen and is a no-op; only the exact strings
`VPOWER` and `AGO` are remapped. -/
def cleanType (v : List Char) : List Char :=
  let f := stripL (upperL (stripL v))
  if f = "VPOWER".toList then "V-POWER".toList
  else if f = "AGO".toList then "DIESEL".toList
  else f

/-- The parsed-data dict (`data`), with the per-field value types
produced by `_clean_value`. -/
structure FuelData where
  driver : Option (List Char)
  car : Option (List Char)
  liters : Option (Sum ℚ (List Char))
  amount : Option (Sum ℚ (List Char))
  ftype : Option (List Char)
  odometer : Option (Sum Int (List Char))
  department : Option (List Char)
deriving DecidableEq, Repr

/-- `len(data)`. -/
def FuelData.count (d : FuelData) : Nat :=
  (if d.driver.isSome then 1 else 0) + (if d.car.isSome then 1 else 0) +
  (if d.liters.isSome then 1 else 0) + (if d.amount.isSome then 1 else 0) +
  (if d.ftype.isSome then 1 else 0) + (if d.odometer.isSome then 1 else 0) +
  (if d.department.isSome then 1 else 0)

/-- The distinct error/warning message templates of `parse`/`_validate`. -/
inductive ParseErr where
  | missingField (field : String)
  | invalidLiters (l : ℚ)
  | warnHighLiters (l : ℚ)
  | invalidAmount (a : ℚ)
  | unknownFuelType (t : List Char)
  | invalidOdometer (o : Int)
  | warnPlateFormat (p : List Char)
deriving DecidableEq, Repr

/-- `VALID_FUEL_TYPES`. -/
def VALID_FUEL_TYPES : List (List Char) :=
  ["DIESEL".toList, "PETROL".toList, "SUPER".toList, "V-POWER".toList,
   "UNLEADED".toList, "AGO".toList]

/-- `^[A-Z]{2,3}\s*\d{2,4}\s*[A-Z]{0,3}$` (compiled with `re.IGNORECASE`
only, so `$` is the non-multiline anchor), applied with `re.match`. -/
def plateRx : Rx :=
  .seq (.reps .alphaU 2 (some 3) false) (.seq ws0 (.seq (.reps .digit 2 (some 4) false)
    (.seq ws0 (.seq (.reps .alphaU 0 (some 3) false) .eolN))))

/-- `re.match` of the plate-format pattern. -/
def plateFormatOk (p : List Char) : Bool := !(mAll plateRx none p).isEmpty

/-- The liters checks of `_validate`: a hard error for a non-positive
float, a warning above 500; a string value (failed conversion) is not
range-checked (`isinstance` guard). -/
def vLitersErrs (d : FuelData) : List ParseErr :=
  match d.liters with
  | some (Sum.inl l) =>
    if l ≤ 0 then [.invalidLiters l]
    else if 500 < l then [.warnHighLiters l]
    else []
  | _ => []

/-- The amount check of `_validate`. -/
def vAmountErrs (d : FuelData) : List ParseErr :=
  match d.amount with
  | some (Sum.inl a) => if a ≤ 0 then [.invalidAmount a] else []
  | _ => []

/-- The fuel-type check of `_validate`. -/
def vTypeErrs (d : FuelData) : List ParseErr :=
  match d.ftype with
  | some t => if t ∈ VALID_FUEL_TYPES then [] else [.unknownFuelType t]
  | none => []

/-- The odometer check of `_validate`. -/
def vOdoErrs (d : FuelData) : List ParseErr :=
  match d.odometer with
  | some (Sum.inl o) => if o ≤ 0 then [.invalidOdometer o] else []
  | _ => []

/-- The plate-format check of `_validate` (a warning, never a hard
error). -/
def vCarErrs (d : FuelData) : List ParseErr :=
  match d.car with
  | some p => if plateFormatOk p then [] else [.warnPlateFormat p]
  | none => []

/-- `FuelReportParser._validate`, in source order (liters, amount, type,
odometer, plate format); only numeric values are range-checked. -/
def validateData (d : FuelData) : List ParseErr :=
  vLitersErrs d ++ vAmountErrs d ++ vTypeErrs d ++ vOdoErrs d ++ vCarErrs d

/-- The default `required_fields` configuration. -/
def defaultRequired : List String :=
  ["driver", "car", "liters", "amount", "type", "odometer"]

/-- Field extraction as in `parse`: first against the text with newlines
preserved, then (only when no pattern matched at all) against the
whitespace-collapsed text. -/
def getField (pats : List Rx) (tNl tCollapsed : List Char) : Option (List Char) :=
  match extractField pats tNl with
  | some v => some v
  | none => extractField pats tCollapsed

/-- A raw extracted value is entered into `data` only when truthy
(non-empty). -/
def fieldVal (v : Option (List Char)) : Option (List Char) :=
  match v with
  | some l => if l = [] then none else some l
  | none => none

/-- The missing-required-field error for one field. -/
def missingErr (field : String) (required : List String) (v : Option (List Char)) :
    List ParseErr :=
  match fieldVal v with
  | some _ => []
  | none => if field ∈ required then [.missingField field] else []

/-- The text with original newlines (`text_with_newlines` in `parse`):
upper-cased and stripped. -/
def normNl (body : List Char) : List Char := stripL (upperL body)

/-- The whitespace-collapsed text (`text` in `parse`): upper-cased,
stripped, whitespace runs collapsed, then the (by then vacuous) CR
replacements. -/
def normCollapsed (body : List Char) : List Char :=
  replaceCR (replaceCRLF (collapseWs (stripL (upperL body))))

/-- The raw extracted value of one field of the table. -/
def rawField (pats : List Rx) (body : List Char) : Option (List Char) :=
  getField pats (normNl body) (normCollapsed body)

/-- The `data` dict built by `parse`: each field extracted in the
pattern-table order (driver, car, liters, amount, type, odometer,
department), entered when truthy and cleaned by `_clean_value`. -/
def parseData (body : List Char) : FuelData :=
  ⟨(fieldVal (rawField driverPats body)).map cleanDriver,
   (fieldVal (rawField carPats body)).map cleanCar,
   (fieldVal (rawField litersPats body)).map cleanNum,
   (fieldVal (rawField amountPats body)).map cleanNum,
   (fieldVal (rawField typePats body)).map cleanType,
   (fieldVal (rawField odometerPats body)).map cleanOdometer,
   (fieldVal (rawField departmentPats body)).map cleanDepartment⟩

/-- The `errors` list built by `parse`: the missing-required-field
messages in table order followed by the `_validate` messages.  Warnings
and hard errors share this one list. -/
def parseErrors (required : List String) (body : List Char) : List ParseErr :=
  missingErr "driver" required (rawField driverPats body) ++
  missingErr "car" required (rawField carPats body) ++
  missingErr "liters" required (rawField litersPats body) ++
  missingErr "amount" required (rawField amountPats body) ++
  missingErr "type" required (rawField typePats body) ++
  missingErr "odometer" required (rawField odometerPats body) ++
  missingErr "department" required (rawField departmentPats body) ++
  validateData (parseData body)

/-- `FuelReportParser.parse`: normalize the text, extract and clean each
field, validate, and apply the strict/lenient result policy of the
source: strict mode rejects on any non-empty error list (warnings
included); lenient mode accepts whenever at least two fields were
extracted; otherwise `None` exactly when every required field is missing
(`len(errors) == len(required_fields)`). -/
def parseFuel (strict : Bool) (required : List String) (body : List Char) :
    Option FuelData × List ParseErr :=
  let data := parseData body
  let errors := parseErrors required body
  if strict = true ∧ errors ≠ [] then (none, errors)
  else if strict = false ∧ 2 ≤ data.count then (some data, errors)
  else if errors.length = required.length then (none, errors)
  else (some data, errors)


/-- A well-formed message whose liters value is 600 (> 500). -/
def msg600 : List Char :=
  ("DRIVER:A B\nCAR:KCA 542Q\nLITERS:600\nAMOUNT:9\nTYPE:DIESEL\nODOMETER:5\nDEPARTMENT:X").toList


/-- The strings the fuel-type alternation
`(DIESEL|PETROL|SUPER|V-?POWER|UNLEADED|AGO)` can consume. -/
def fuelTokens : List (List Char) :=
  ["DIESEL".toList, "PETROL".toList, "SUPER".toList, "V-POWER".toList,
   "VPOWER".toList, "UNLEADED".toList, "AGO".toList]

/-- The canonical fuel-type set of the specification. -/
def CANONICAL_TYPES : List (List Char) :=
  ["DIESEL".toList, "PETROL".toList, "SUPER".toList, "V-POWER".toList,
   "UNLEADED".toList]

/-- Fragments containing no capturing group. -/
def grpFree : Rx → Bool
  | .eps | .eolM | .eolN | .wb => true
  | .cc _ => true
  | .str _ => true
  | .reps _ _ _ _ => true
  | .seq a b => grpFree a && grpFree b
  | .alt a b => grpFree a && grpFree b
  | .opt a => grpFree a
  | .grp _ => false
  | .look _ => true

/-- Every consumed text of `r` satisfies `P`. -/
def EatenIn (P : List Char → Prop) (r : Rx) : Prop :=
  ∀ prev s o, o ∈ mAll r prev s → P o.eaten

/-- Every group-1 capture of `r` satisfies `P`. -/
def CapIn (P : List Char → Prop) (r : Rx) : Prop :=
  ∀ prev s o, o ∈ mAll r prev s → ∀ c, o.cap = some c → P c

/-- Newline join of message lines (`'\n'.join(lines)`). -/
def joinNl : List (List Char) → List Char
  | [] => []
  | [l] => l
  | l :: ls => l ++ '\n' :: joinNl ls

/-- The lines before a given line, each followed by its separating
newline. -/
def flatJoin : List (List Char) → List Char
  | [] => []
  | l :: ls => l ++ '\n' :: flatJoin ls

/-- One canonical field line: keyword, separator, one space, value. -/
def canonLine (kw : String) (sep : Char) (v : String) : List Char :=
  kw.toList ++ sep :: ' ' :: v.toList

/-- The seven canonical field lines of the permutation claim, in pattern
table order, with the given keyword/value separator. -/
def canonLines (sep : Char) : List (List Char) :=
  [canonLine "DRIVER" sep "JOHN KAMAU",
   canonLine "CAR" sep "KCA 542Q",
   canonLine "LITERS" sep "45.5",
   canonLine "AMOUNT" sep "9500",
   canonLine "TYPE" sep "DIESEL",
   canonLine "ODOMETER" sep "125430",
   canonLine "DEPARTMENT" sep "LOGISTICS"]

/-- The cleaned field values every permutation of the canonical lines
must parse to. -/
def canonData : FuelData :=
  ⟨some "John Kamau".toList, some "KCA 542Q".toList,
   some (Sum.inl ((91 : ℚ) / 2)), some (Sum.inl (9500 : ℚ)),
   some "DIESEL".toList, some (Sum.inl (125430 : Int)),
   some "LOGISTICS".toList⟩

/-- Within the overlap of `K` and `w`, some position differs
case-insensitively, so `K` is a case-insensitive prefix of no extension
of `w`. -/
def winMismatch : List Char → List Char → Bool
  | [], _ => false
  | _ :: _, [] => false
  | a :: K, b :: w => !ciEq a b || winMismatch K w

/-- At no position of `w` (nor continuing past `w` into appended text)
can `K` start case-insensitively. -/
def lineBlocks (K : List Char) : List Char → Bool
  | [] => true
  | c :: w => winMismatch K (c :: w) && lineBlocks K w

/-- Fragments that never consult the previous character (no word
boundary). -/
def prevFree : Rx → Bool
  | .wb => false
  | .seq a b => prevFree a && prevFree b
  | .alt a b => prevFree a && prevFree b
  | .opt a => prevFree a
  | .grp a => prevFree a
  | .look a => prevFree a
  | _ => true

/-! ### Helper lemmas -/

/-- The odometer readings of a plate that `get_last_odometer_for_car`
scans: rows of the plate with a truthy, parseable odometer value, in
workbook order. -/
def plateOdos (rows : List FuelRec) (carPlate : String) : List Int :=
  rows.filterMap (fun row =>
    if normSpaceUpper row.car == normSpaceUpper carPlate && row.odometer.truthy then
      row.odometer.parseI
    else none)

/-- Concrete workbook row used by the C1 counterexample: an accepted
record for plate KCA542Q with odometer reading 100. -/
def c1Row : FuelRec :=
  ⟨"KCA542Q", "A", "LOG", "DIESEL", ⟨true, some 100⟩, ⟨true, some 40⟩,
   ⟨true, some 5000⟩, "s", "p"⟩

/-- Candidate record whose odometer field holds the Python string "0":
truthy, and `int(float("0"))` converts to 0. -/
def c1Bad : FuelRec :=
  ⟨"KCA542Q", "B", "LOG", "DIESEL", ⟨true, some 0⟩, ⟨true, some 40⟩,
   ⟨true, some 5000⟩, "s", "p"⟩

/-- Candidate record with odometer reading 50 (a genuine regression
against the reading 100 on file). -/
def c1Low : FuelRec :=
  ⟨"KCA542Q", "B", "LOG", "DIESEL", ⟨true, some 50⟩, ⟨true, some 40⟩,
   ⟨true, some 5000⟩, "s", "p"⟩

/-- State whose workbook holds the single row `c1Row`. -/
def c1St : St := ⟨[c1Row], [], [], [], [], 0⟩


/-- A last-state entry with a parseable timestamp (epoch second 0). -/
def lsA : LastState :=
  ⟨some 0, "A", ⟨true, some 40⟩, ⟨true, some 5000⟩, ⟨true, some 100⟩,
   "DIESEL", "LOG", none⟩

/-- A last-state entry whose stored timestamp string does not parse. -/
def lsBadTs : LastState :=
  ⟨none, "A", ⟨true, some 40⟩, ⟨true, some 5000⟩, ⟨true, some 100⟩,
   "DIESEL", "LOG", none⟩

/-- State with a fresh (1 hour old) last-state entry for KCA542Q. -/
def c2St : St := ⟨[], [("KCA542Q", lsA)], [], [], [], 0⟩

/-- State whose last-state entry for KCA542Q has an unparseable timestamp. -/
def c10St : St := ⟨[], [("KCA542Q", lsBadTs)], [], [], [], 0⟩

/-- A well-formed candidate record for KCA542Q. -/
def c2Rec : FuelRec :=
  ⟨"KCA542Q", "B", "LOG", "DIESEL", ⟨true, some 150⟩, ⟨true, some 30⟩,
   ⟨true, some 4000⟩, "s", "p"⟩

/-- An already-approved pending-approval entry. -/
def apDecided : Approval :=
  ⟨"abc12345", "car_cooldown", 0, c2Rec, none, "r", "approved", false, some 1, none⟩

/-- A pending approval entry. -/
def apPend : Approval :=
  ⟨"zzz11111", "car_cooldown", 0, c2Rec, none, "r", "pending", false, none, none⟩

/-- Last state with previous odometer 10000 and previous liters 20
(the spec's efficiency boundary example). -/
def ls20 : LastState :=
  ⟨some 0, "A", ⟨true, some 20⟩, ⟨true, some 5000⟩, ⟨true, some 10000⟩,
   "DIESEL", "LOG", none⟩

/-- Last-update store holding only `ls20` for KCA542Q. -/
def m20 : List (String × LastState) := [("KCA542Q", ls20)]

/-- The empty pipeline state. -/
def emptySt : St := ⟨[], [], [], [], [], 0⟩

/-- Captures of the type patterns case-fold to a fuel token. -/
def TokP (c : List Char) : Prop := ∃ tok ∈ fuelTokens, upperL c = tok

/-- Nonempty with a non-whitespace head character. -/
def headNW (l : List Char) : Bool :=
  match l with
  | [] => false
  | c :: _ => !isPyWs c

/-! ### Theorems -/

lemma getLast?_cons_or (v : α) (l : List α) :
    (v :: l).getLast? = l.getLast?.or (some v) := by
  induction l generalizing v with
  | nil => rfl
  | cons w ws ih =>
    rw [List.getLast?_cons_cons, ih w]
    cases ws.getLast? <;> rfl

lemma get_last_eq_plateOdos (rows : List FuelRec) (p : String) :
    get_last_odometer_for_car rows p = (plateOdos rows p).getLast? := by
  have key : ∀ (rows : List FuelRec) (acc : Option Int),
      rows.foldl
        (fun acc row =>
          if normSpaceUpper row.car == normSpaceUpper p && row.odometer.truthy then
            match row.odometer.parseI with
            | some v => some v
            | none => acc
          else acc)
        acc = ((plateOdos rows p).getLast?).or acc := by
    intro rows
    induction rows with
    | nil => intro acc; rfl
    | cons r rs ih =>
      intro acc
      rw [List.foldl_cons]
      by_cases hc : (normSpaceUpper r.car == normSpaceUpper p && r.odometer.truthy) = true
      · rw [if_pos hc]
        cases hv : r.odometer.parseI with
        | some v =>
          have hpo : plateOdos (r :: rs) p = v :: plateOdos rs p := by
            simp only [plateOdos, List.filterMap_cons, hc, if_pos, hv]
          rw [ih, hpo, getLast?_cons_or]
          cases (plateOdos rs p).getLast? <;> rfl
        | none =>
          have hpo : plateOdos (r :: rs) p = plateOdos rs p := by
            simp only [plateOdos, List.filterMap_cons, hc, if_pos, hv]
          rw [ih, hpo]
      · rw [if_neg hc]
        have hpo : plateOdos (r :: rs) p = plateOdos rs p := by
          simp only [plateOdos, List.filterMap_cons, hc]
          simp
        rw [ih, hpo]
  rw [get_last_odometer_for_car, key rows none]
  cases (plateOdos rows p).getLast? <;> rfl

lemma plateOdos_congr (rows : List FuelRec) {p q : String}
    (h : normSpaceUpper p = normSpaceUpper q) :
    plateOdos rows p = plateOdos rows q := by
  simp only [plateOdos, h]

lemma plateOdos_append (rows₁ rows₂ : List FuelRec) (p : String) :
    plateOdos (rows₁ ++ rows₂) p = plateOdos rows₁ p ++ plateOdos rows₂ p :=
  List.filterMap_append ..

lemma append_record_none (now : Int) (st : St) (record : FuelRec) (n : Int)
    (htr : record.odometer.truthy = true)
    (hp : record.odometer.parseI = some n) (hn : n ≠ 0) (hcar : record.car ≠ "")
    (hlast : get_last_odometer_for_car st.rows record.car = none) :
    append_record now st record true =
      ({ st with rows := st.rows ++ [record] }, true, none) := by
  simp [append_record, validate_odometer, htr, hp, hn, hcar, hlast]

lemma append_record_reject (now : Int) (st : St) (record : FuelRec) (n lastO : Int)
    (htr : record.odometer.truthy = true)
    (hp : record.odometer.parseI = some n) (hn : n ≠ 0) (hcar : record.car ≠ "")
    (hlast : get_last_odometer_for_car st.rows record.car = some lastO)
    (hle : n ≤ lastO) :
    append_record now st record true =
      ({ st with
          verrors := save_validation_error now st.verrors record.car record.driver (.odometerRegression n lastO) record.senderPhone false },
       false, some (.odometerRegression n lastO)) := by
  simp [append_record, validate_odometer, htr, hp, hn, hcar, hlast, hle]

lemma append_record_ok (now : Int) (st : St) (record : FuelRec) (n lastO : Int)
    (htr : record.odometer.truthy = true)
    (hp : record.odometer.parseI = some n) (hn : n ≠ 0) (hcar : record.car ≠ "")
    (hlast : get_last_odometer_for_car st.rows record.car = some lastO)
    (hgt : lastO < n) :
    append_record now st record true =
      ({ st with rows := st.rows ++ [record] }, true, none) := by
  have hle : ¬ n ≤ lastO := not_le.mpr hgt
  simp [append_record, validate_odometer, htr, hp, hn, hcar, hlast, hle]

lemma plateOdos_singleton_beq (record : FuelRec) (plate : String) (n : Int)
    (htr : record.odometer.truthy = true)
    (hp : record.odometer.parseI = some n)
    (hbeq : normSpaceUpper record.car = normSpaceUpper plate) :
    plateOdos [record] plate = [n] := by
  simp [plateOdos, hbeq, htr, hp]

lemma plateOdos_singleton_ne (record : FuelRec) (plate : String)
    (hbeq : normSpaceUpper record.car ≠ normSpaceUpper plate) :
    plateOdos [record] plate = [] := by
  simp [plateOdos, hbeq]

/-- Claim C1 (amended): consider a candidate record whose odometer value is
truthy and converts via `int(float(str(v).replace(',', '')))` to a nonzero
integer `n`, with a truthy plate.  If the workbook already has a last
recorded reading for that plate and `n` does not exceed it, then
`append_record` fails with the odometer error, saves a sender-directed
validation error, and appends nothing; and appending such a candidate
preserves, for every plate, strict increase of the recorded odometer
readings (`plateOdos`) in append order.  (The claim as stated, without the
nonzero/parseable restriction, is refuted by `claim1_counterexample`:
a truthy odometer value converting to 0 — e.g. the string "0" — bypasses
validation because of `if not new_odometer` and is appended.) -/
theorem claim1_amended (now : Int) (st : St) (record : FuelRec) (n : Int)
    (htr : record.odometer.truthy = true)
    (hp : record.odometer.parseI = some n) (hn : n ≠ 0) (hcar : record.car ≠ "") :
    (∀ lastO, get_last_odometer_for_car st.rows record.car = some lastO →
      n ≤ lastO →
      (append_record now st record true).2.1 = false ∧
      (append_record now st record true).1.rows = st.rows ∧
      (append_record now st record true).2.2 = some (.odometerRegression n lastO)) ∧
    (∀ plate, List.Chain' (· < ·) (plateOdos st.rows plate) →
      List.Chain' (· < ·) (plateOdos (append_record now st record true).1.rows plate)) := by
  constructor
  · intro lastO hlast hle
    rw [append_record_reject now st record n lastO htr hp hn hcar hlast hle]
    exact ⟨rfl, rfl, rfl⟩
  · intro plate hch
    cases hlast : get_last_odometer_for_car st.rows record.car with
    | none =>
      rw [append_record_none now st record n htr hp hn hcar hlast]
      by_cases hbeq : normSpaceUpper record.car = normSpaceUpper plate
      · have hnil : plateOdos st.rows plate = [] := by
          have h1 : plateOdos st.rows record.car = plateOdos st.rows plate :=
            plateOdos_congr st.rows hbeq
          have h2 := get_last_eq_plateOdos st.rows record.car
          rw [hlast, h1] at h2
          exact List.getLast?_eq_none_iff.mp h2.symm
        show List.Chain' (· < ·) (plateOdos (st.rows ++ [record]) plate)
        rw [plateOdos_append, plateOdos_singleton_beq record plate n htr hp hbeq, hnil]
        simp
      · show List.Chain' (· < ·) (plateOdos (st.rows ++ [record]) plate)
        rw [plateOdos_append, plateOdos_singleton_ne record plate hbeq, List.append_nil]
        exact hch
    | some lastO =>
      by_cases hle : n ≤ lastO
      · rw [append_record_reject now st record n lastO htr hp hn hcar hlast hle]
        exact hch
      · rw [append_record_ok now st record n lastO htr hp hn hcar hlast (not_le.mp hle)]
        by_cases hbeq : normSpaceUpper record.car = normSpaceUpper plate
        · show List.Chain' (· < ·) (plateOdos (st.rows ++ [record]) plate)
          rw [plateOdos_append, plateOdos_singleton_beq record plate n htr hp hbeq]
          rw [List.chain'_append]
          refine ⟨hch, List.chain'_singleton n, ?_⟩
          intro x hx y hy
          have h1 : plateOdos st.rows record.car = plateOdos st.rows plate :=
            plateOdos_congr st.rows hbeq
          have h2 := get_last_eq_plateOdos st.rows record.car
          rw [hlast, h1] at h2
          rw [← h2] at hx
          simp only [Option.mem_def, Option.some_inj] at hx
          simp only [List.head?_cons, Option.mem_def, Option.some_inj] at hy
          subst hx
          subst hy
          exact not_le.mp hle
        · show List.Chain' (· < ·) (plateOdos (st.rows ++ [record]) plate)
          rw [plateOdos_append, plateOdos_singleton_ne record plate hbeq, List.append_nil]
          exact hch

/-- Claim C1, counterexample to the claim as stated: the workbook's last
recorded reading for KCA542Q is 100, the candidate `c1Bad` carries the
odometer value "0" (truthy, converting to 0, and 0 ≤ 100), yet
`append_record` succeeds and appends it — because `validate_odometer`
returns early on a zero reading (`if not new_odometer`) — after which the
recorded odometer values of the accepted records are no longer strictly
increasing. -/
theorem claim1_counterexample :
    get_last_odometer_for_car c1St.rows "KCA542Q" = some 100 ∧
    c1Bad.odometer.parseI = some 0 ∧ c1Bad.odometer.truthy = true ∧
    (append_record 0 c1St c1Bad true).2.1 = true ∧
    (append_record 0 c1St c1Bad true).1.rows = [c1Row, c1Bad] ∧
    ¬ List.Chain' (· < ·) (plateOdos (append_record 0 c1St c1Bad true).1.rows "KCA542Q") := by
  have hrows : (append_record 0 c1St c1Bad true).1.rows = [c1Row, c1Bad] := by decide
  refine ⟨by decide, by decide, by decide, by decide, hrows, ?_⟩
  rw [hrows]
  have hodos : plateOdos [c1Row, c1Bad] "KCA542Q" = [100, 0] := by decide
  rw [hodos]
  norm_num [List.chain'_cons]

/-- Witness for `claim1_amended` at a concrete input: candidate reading 50
against recorded reading 100 for the same plate is rejected and nothing is
appended. -/
theorem claim1_witness :
    (append_record 0 c1St c1Low true).2.1 = false ∧
    (append_record 0 c1St c1Low true).1.rows = c1St.rows := by
  have h := claim1_amended 0 c1St c1Low 50 (by decide) (by decide) (by decide) (by decide)
  have h2 := h.1 100 (by decide) (by decide)
  exact ⟨h2.1, h2.2.1⟩

lemma getLast?_drop_of_lt (k : Nat) (l : List α) (h : k < l.length) :
    (l.drop k).getLast? = l.getLast? := by
  induction l generalizing k with
  | nil => simp at h
  | cons x xs ih =>
    cases k with
    | zero => rfl
    | succ k' =>
      have hk : k' < xs.length := by simpa using h
      have hne : xs ≠ [] := by
        intro he
        rw [he] at hk
        simp at hk
      rw [List.drop_succ_cons, ih k' hk, getLast?_cons_or]
      cases hx : xs.getLast? with
      | none => exact absurd (List.getLast?_eq_none_iff.mp hx) hne
      | some w => rfl

lemma getLast?_lastN (n : Nat) (l : List α) (hn : 0 < n) (hl : l ≠ []) :
    (lastN n l).getLast? = l.getLast? := by
  have hlen : 0 < l.length := List.length_pos.mpr hl
  exact getLast?_drop_of_lt (l.length - n) l (by omega)

lemma save_validation_error_getLast (now : Int) (errors : List VError)
    (car driver : String) (issue : IssueMsg) (phone : String) (adm : Bool) :
    (save_validation_error now errors car driver issue phone adm).getLast? =
      some ⟨now, car, driver, issue, phone, adm, false⟩ := by
  unfold save_validation_error
  simp only
  split
  · rw [getLast?_lastN 1000 _ (by norm_num) (by simp)]
    exact List.getLast?_concat _
  · exact List.getLast?_concat _

lemma save_pending_mem_of_pending (now : Int) (fid : String) (l : List Approval)
    (ty : String) (rec : FuelRec) (orig : Option LastState) (rsn : String)
    (a : Approval) (ha : a ∈ l ++ [mkPendingApproval now fid ty rec orig rsn])
    (hp : a.status = "pending") :
    a ∈ (save_pending_approval now fid l ty rec orig rsn).2 := by
  unfold save_pending_approval
  simp only
  split
  · apply List.mem_append_left
    exact List.mem_filter.mpr ⟨ha, by simp [hp]⟩
  · exact ha

/-- Claim C2: with no last-state entry for the plate the cooldown check
passes trivially with `(True, None)`; with an entry whose timestamp parses
and lies strictly less than 12 hours (43200 s) in the past, the check
returns `(False, approval_id)`, a pending approval of type `car_cooldown`
holding the candidate record and the previous state is in the approvals
store, and an admin-directed (`is_approval_request=True`) validation-error
notification is appended. -/
theorem claim2_cooldown (now : Int) (fid : String) (st : St) (plate : String)
    (record : FuelRec) :
    (get_car_last_update st.lastUpdates plate = none →
      check_car_cooldown now fid st plate record = (st, true, none)) ∧
    (∀ last t, get_car_last_update st.lastUpdates plate = some last →
      last.timestampP = some t → now - t < 43200 →
      (check_car_cooldown now fid st plate record).2 = (false, some fid) ∧
      (∃ a ∈ (check_car_cooldown now fid st plate record).1.approvals,
        a.id = fid ∧ a.atype = "car_cooldown" ∧ a.status = "pending" ∧
        a.record = record ∧ a.originalRecord = some last) ∧
      (∃ e, (check_car_cooldown now fid st plate record).1.verrors.getLast? = some e ∧
        e.isApprovalRequest = true ∧ e.issue = .cooldownApproval fid ∧
        e.car = plate)) := by
  constructor
  · intro h
    simp [check_car_cooldown, h]
  · intro last t hlast ht hlt
    have hcond : now - t < CAR_COOLDOWN_HOURS * 3600 := by
      have : CAR_COOLDOWN_HOURS * 3600 = 43200 := by norm_num [CAR_COOLDOWN_HOURS]
      omega
    have heq : check_car_cooldown now fid st plate record =
        ({ st with
            approvals := (save_pending_approval now fid st.approvals "car_cooldown" record (some last) "car_cooldown").2,
            verrors := save_validation_error now st.verrors plate record.driver (.cooldownApproval fid) record.senderPhone true },
          false, some fid) := by
      simp [check_car_cooldown, hlast, ht, hcond, save_pending_approval]
    refine ⟨by rw [heq], ?_, ?_⟩
    · refine ⟨mkPendingApproval now fid "car_cooldown" record (some last) "car_cooldown", ?_, rfl, rfl, rfl, rfl, rfl⟩
      rw [heq]
      exact save_pending_mem_of_pending now fid st.approvals "car_cooldown" record
        (some last) "car_cooldown" _ (List.mem_append_right _ (List.mem_singleton.mpr rfl)) rfl
    · refine ⟨⟨now, plate, record.driver, .cooldownApproval fid, record.senderPhone, true, false⟩, ?_, rfl, rfl, rfl⟩
      rw [heq]
      exact save_validation_error_getLast now st.verrors plate record.driver
        (.cooldownApproval fid) record.senderPhone true

/-- Witness for `claim2_cooldown`: one hour after the entry of `c2St`, a
new report for KCA542Q is blocked and queued for approval, and an unknown
plate passes trivially. -/
theorem claim2_witness :
    check_car_cooldown 3600 "id1" c2St "KCB711C" c2Rec = (c2St, true, none) ∧
    (check_car_cooldown 3600 "id1" c2St "KCA542Q" c2Rec).2 = (false, some "id1") := by
  have h1 := (claim2_cooldown 3600 "id1" c2St "KCB711C" c2Rec).1 (by decide)
  have h2 := ((claim2_cooldown 3600 "id1" c2St "KCA542Q" c2Rec).2 lsA 0
    (by decide) (by decide) (by decide)).1
  exact ⟨h1, h2⟩

/-- Claim C10: a last-state entry whose stored timestamp is missing, empty
or unparseable makes `datetime.fromisoformat` raise; the bare `except`
swallows it and the cooldown gate fails open: `(True, None)`, no pending
approval and no notification. -/
theorem claim10_failopen (now : Int) (fid : String) (st : St) (plate : String)
    (record : FuelRec) (last : LastState)
    (hlast : get_car_last_update st.lastUpdates plate = some last)
    (ht : last.timestampP = none) :
    check_car_cooldown now fid st plate record = (st, true, none) := by
  simp [check_car_cooldown, hlast, ht]

/-- Witness for `claim10_failopen` at a concrete input. -/
theorem claim10_witness :
    check_car_cooldown 3600 "id1" c10St "KCA542Q" c2Rec = (c10St, true, none) :=
  claim10_failopen 3600 "id1" c10St "KCA542Q" c2Rec lsBadTs (by decide) (by decide)

lemma updFirstApproved_forall₂ (now : Int) (aid : String) (l : List Approval)
    (a : Approval) (hfind : l.find? (fun x => x.id == aid) = some a)
    (hp : a.status = "pending") :
    List.Forall₂
      (fun a' a => a' = a ∨
        (a.status = "pending" ∧ a' = { a with status := "approved", approvedAt := some now }))
      (updFirstApproved now aid l) l := by
  induction l with
  | nil => simp at hfind
  | cons x xs ih =>
    cases hx : (x.id == aid) with
    | true =>
      rw [List.find?_cons, hx] at hfind
      have hax : a = x := by injection hfind with h; exact h.symm
      subst hax
      simp only [updFirstApproved, hx, if_pos]
      exact List.Forall₂.cons (Or.inr ⟨hp, rfl⟩)
        (List.forall₂_same.mpr (fun y _ => Or.inl rfl))
    | false =>
      rw [List.find?_cons, hx] at hfind
      simp only [updFirstApproved, hx, Bool.false_eq_true, if_neg, not_false_iff]
      exact List.Forall₂.cons (Or.inl rfl) (ih hfind)

lemma updFirstRejected_forall₂ (now : Int) (aid : String) (l : List Approval)
    (a : Approval) (hfind : l.find? (fun x => x.id == aid) = some a)
    (hp : a.status = "pending") :
    List.Forall₂
      (fun a' a => a' = a ∨
        (a.status = "pending" ∧ a' = { a with status := "rejected", rejectedAt := some now }))
      (updFirstRejected now aid l) l := by
  induction l with
  | nil => simp at hfind
  | cons x xs ih =>
    cases hx : (x.id == aid) with
    | true =>
      rw [List.find?_cons, hx] at hfind
      have hax : a = x := by injection hfind with h; exact h.symm
      subst hax
      simp only [updFirstRejected, hx, if_pos]
      exact List.Forall₂.cons (Or.inr ⟨hp, rfl⟩)
        (List.forall₂_same.mpr (fun y _ => Or.inl rfl))
    | false =>
      rw [List.find?_cons, hx] at hfind
      simp only [updFirstRejected, hx, Bool.false_eq_true, if_neg, not_false_iff]
      exact List.Forall₂.cons (Or.inl rfl) (ih hfind)

lemma approve_forall₂ (now : Int) (l : List Approval) (aid : String) :
    List.Forall₂
      (fun a' a => a' = a ∨
        (a.status = "pending" ∧ a' = { a with status := "approved", approvedAt := some now }))
      (approve_pending now l aid).2.2.2 l := by
  unfold approve_pending
  split
  · exact List.forall₂_same.mpr (fun y _ => Or.inl rfl)
  · cases hfind : l.find? (fun x => x.id == aid) with
    | none => exact List.forall₂_same.mpr (fun y _ => Or.inl rfl)
    | some a =>
      by_cases hs : (a.status != "pending") = true
      · simp only [hs, if_pos]
        exact List.forall₂_same.mpr (fun y _ => Or.inl rfl)
      · simp only [hs, Bool.false_eq_true, not_false_iff, if_neg]
        have hp : a.status = "pending" := by
          simpa using hs
        exact updFirstApproved_forall₂ now aid l a hfind hp

lemma reject_forall₂ (now : Int) (l : List Approval) (aid : String) :
    List.Forall₂
      (fun a' a => a' = a ∨
        (a.status = "pending" ∧ a' = { a with status := "rejected", rejectedAt := some now }))
      (reject_pending now l aid).2.2 l := by
  unfold reject_pending
  split
  · exact List.forall₂_same.mpr (fun y _ => Or.inl rfl)
  · cases hfind : l.find? (fun x => x.id == aid) with
    | none => exact List.forall₂_same.mpr (fun y _ => Or.inl rfl)
    | some a =>
      by_cases hs : (a.status != "pending") = true
      · simp only [hs, if_pos]
        exact List.forall₂_same.mpr (fun y _ => Or.inl rfl)
      · simp only [hs, Bool.false_eq_true, not_false_iff, if_neg]
        have hp : a.status = "pending" := by
          simpa using hs
        exact updFirstRejected_forall₂ now aid l a hfind hp

/-- Claim C3: deciding an id whose (first matching) entry is already
approved or rejected fails with the `already processed` message and leaves
the store unchanged, for both `approve_pending` and `reject_pending`; and
on any input the store transition of either function changes entries only
from `pending` to `approved` (resp. `rejected`), entrywise. -/
theorem claim3_terminal (now : Int) (l : List Approval) (aid : String) :
    (∀ a, l.find? (fun x => x.id == aid) = some a →
      (a.status = "approved" ∨ a.status = "rejected") →
      approve_pending now l aid = (false, .alreadyProcessed aid, none, l) ∧
      reject_pending now l aid = (false, .alreadyProcessed aid, l)) ∧
    List.Forall₂
      (fun a' a => a' = a ∨
        (a.status = "pending" ∧ a' = { a with status := "approved", approvedAt := some now }))
      (approve_pending now l aid).2.2.2 l ∧
    List.Forall₂
      (fun a' a => a' = a ∨
        (a.status = "pending" ∧ a' = { a with status := "rejected", rejectedAt := some now }))
      (reject_pending now l aid).2.2 l := by
  refine ⟨?_, approve_forall₂ now l aid, reject_forall₂ now l aid⟩
  intro a hfind hst
  cases l with
  | nil => simp at hfind
  | cons x xs =>
    have hstatus : (a.status != "pending") = true := by
      rcases hst with h | h <;> simp [h]
    constructor
    · simp [approve_pending, hfind, hstatus]
    · simp [reject_pending, hfind, hstatus]

/-- Witness for `claim3_terminal`: re-deciding the already approved entry
`apDecided` fails with `already processed` and leaves the store unchanged. -/
theorem claim3_witness :
    approve_pending 5 [apDecided, apPend] "abc12345" =
      (false, .alreadyProcessed "abc12345", none, [apDecided, apPend]) ∧
    reject_pending 5 [apDecided, apPend] "abc12345" =
      (false, .alreadyProcessed "abc12345", [apDecided, apPend]) :=
  (claim3_terminal 5 [apDecided, apPend] "abc12345").1 apDecided
    (by decide) (Or.inl (by decide))

/-- Claim C4: with a last-state entry whose previous odometer converts to
a positive integer `p` and previous liters to a positive `L`, and a current
odometer strictly above `p`, the computed efficiency is
`(current − p) / L`; with no last-state entry for the plate the function
returns `(none, none)`. -/
theorem claim4_efficiency (m : List (String × LastState)) (plate : String)
    (curOdo : Int) (curLit : ℚ) :
    (get_car_last_update m plate = none →
      calculate_fuel_efficiency m plate curOdo curLit = (none, none)) ∧
    (∀ last p L, get_car_last_update m plate = some last →
      last.odometer.parseI = some p → 0 < p →
      last.liters.parseF = some L → 0 < L → p < curOdo →
      (calculate_fuel_efficiency m plate curOdo curLit).1 =
        some (((curOdo : ℚ) - (p : ℚ)) / L)) := by
  constructor
  · intro h
    simp [calculate_fuel_efficiency, h]
  · intro last p L hlast hp hpos hL hLpos hlt
    have hcond : ¬ (p ≤ 0 ∨ curOdo ≤ p) := by
      push_neg
      exact ⟨hpos, hlt⟩
    have hL2 : ¬ (L ≤ 0) := not_le.mpr hLpos
    simp only [calculate_fuel_efficiency, hlast, hp, hL, hcond, if_neg, hL2,
      not_false_iff]
    congr 1
    push_cast
    ring

/-- Witness for `claim4_efficiency`: previous odometer 10000, previous
liters 20, current odometer 10400 give 400 / 20 = 20 km/L, and an unknown
plate gives no efficiency and no alert. -/
theorem claim4_witness :
    (calculate_fuel_efficiency m20 "KCA542Q" 10400 40).1 = some 20 ∧
    calculate_fuel_efficiency m20 "KCB711C" 10400 40 = (none, none) := by
  have h2 := (claim4_efficiency m20 "KCB711C" 10400 40).1 (by decide)
  have h1 := (claim4_efficiency m20 "KCA542Q" 10400 40).2 ls20 10000 20
    (by decide) (by decide) (by decide) (by decide) (by decide) (by decide)
  refine ⟨?_, h2⟩
  rw [h1]
  norm_num

/-- Claim C7: `save_pending_approval` never prunes a pending entry — every
pending entry of the store-after-append survives the retention trim; the
trimmed store holds no entries beyond those of the store-after-append; and
the surviving non-pending entries are a suffix (i.e. the newest ones, the
oldest being pruned first) of the non-pending entries before trimming. -/
theorem claim7_retention (now : Int) (fid : String) (l : List Approval)
    (ty : String) (rec : FuelRec) (orig : Option LastState) (rsn : String) :
    (∀ a, a ∈ l ++ [mkPendingApproval now fid ty rec orig rsn] →
      a.status = "pending" → a ∈ (save_pending_approval now fid l ty rec orig rsn).2) ∧
    (∀ a, a ∈ (save_pending_approval now fid l ty rec orig rsn).2 →
      a ∈ l ++ [mkPendingApproval now fid ty rec orig rsn]) ∧
    ((save_pending_approval now fid l ty rec orig rsn).2.filter
        (fun a => a.status != "pending")) <:+
      ((l ++ [mkPendingApproval now fid ty rec orig rsn]).filter
        (fun a => a.status != "pending")) := by
  refine ⟨?_, ?_, ?_⟩
  · intro a ha hp
    exact save_pending_mem_of_pending now fid l ty rec orig rsn a ha hp
  · intro a ha
    unfold save_pending_approval at ha
    simp only at ha
    by_cases hlen : 500 < (l ++ [mkPendingApproval now fid ty rec orig rsn]).length
    · rw [if_pos hlen] at ha
      rcases List.mem_append.mp ha with h | h
      · exact (List.mem_filter.mp h).1
      · exact (List.mem_filter.mp (List.mem_of_mem_drop h)).1
    · rw [if_neg hlen] at ha
      exact ha
  · unfold save_pending_approval
    simp only
    by_cases hlen : 500 < (l ++ [mkPendingApproval now fid ty rec orig rsn]).length
    · rw [if_pos hlen]
      rw [List.filter_append]
      have h1 : ((l ++ [mkPendingApproval now fid ty rec orig rsn]).filter
          (fun a => a.status == "pending")).filter (fun a => a.status != "pending") = [] := by
        apply List.filter_eq_nil_iff.mpr
        intro a ha
        have heq : a.status = "pending" := by
          simpa using (List.mem_filter.mp ha).2
        simp [heq]
      have h2 : (lastN 300 ((l ++ [mkPendingApproval now fid ty rec orig rsn]).filter
          (fun a => a.status != "pending"))).filter (fun a => a.status != "pending") =
          lastN 300 ((l ++ [mkPendingApproval now fid ty rec orig rsn]).filter
            (fun a => a.status != "pending")) := by
        apply List.filter_eq_self.mpr
        intro a ha
        exact (List.mem_filter.mp (List.mem_of_mem_drop ha)).2
      rw [h1, h2, List.nil_append]
      exact List.drop_suffix _ _
    · rw [if_neg hlen]

/-- Witness for `claim7_retention` at a concrete input: the freshly
appended pending approval is in the store after the call. -/
theorem claim7_witness :
    mkPendingApproval 7 "id7" "car_cooldown" c2Rec none "r" ∈
      (save_pending_approval 7 "id7" [apDecided] "car_cooldown" c2Rec none "r").2 :=
  (claim7_retention 7 "id7" [apDecided] "car_cooldown" c2Rec none "r").1 _
    (List.mem_append_right _ (List.mem_singleton.mpr rfl)) rfl

lemma append_record_rows_of_success (now : Int) (st : St) (record : FuelRec)
    (v : Bool) :
    (append_record now st record v).2.1 = true →
    (append_record now st record v).1.rows = st.rows ++ [record] := by
  unfold append_record
  split
  · split
    · split
      · intro _; rfl
      · intro h; exact absurd h (by simp)
    · intro _; rfl
  · intro _; rfl

lemma process_record_eff_rows (now : Int) (st2 : St) (record : FuelRec) :
    (process_record_eff now st2 record).2.2.rows = st2.rows := by
  unfold process_record_eff
  repeat' split
  all_goals rfl

/-- Claim C5: `calculate_fuel_efficiency` attaches a `low_efficiency`
alert exactly when the efficiency is strictly below 4.0 km/L and a
`high_efficiency` alert exactly when it is strictly above 20.0 km/L;
the boundary value of exactly 20.0 km/L (previous odometer 10000,
previous liters 20, current odometer 10400) yields no alert; and a record
whose cooldown gate and workbook append succeed is accepted and persisted
by `process_record` regardless of the alert: the alert block runs only
after the append and never turns acceptance into rejection. -/
theorem claim5_alerts :
    (∀ (m : List (String × LastState)) (plate : String) (curOdo : Int)
        (curLit : ℚ) (e : ℚ) (al : Option Alert),
      calculate_fuel_efficiency m plate curOdo curLit = (some e, al) →
      ((∃ a, al = some a ∧ a.atype = "low_efficiency") ↔ e < 4) ∧
      ((∃ a, al = some a ∧ a.atype = "high_efficiency") ↔ 20 < e) ∧
      (al = none ↔ 4 ≤ e ∧ e ≤ 20)) ∧
    calculate_fuel_efficiency m20 "KCA542Q" 10400 40 = (some 20, none) ∧
    (∀ (now : Int) (fid : String) (st st1 : St) (record : FuelRec)
        (oid : Option String),
      check_car_cooldown now fid st record.car record = (st1, true, oid) →
      (append_record now st1 record true).2.1 = true →
      (process_record now fid st record false).2 = true ∧
      record ∈ (process_record now fid st record false).1.rows) := by
  refine ⟨?_, ?_, ?_⟩
  · intro m plate curOdo curLit e al h
    unfold calculate_fuel_efficiency at h
    split at h
    · exact absurd h (by simp)
    · split at h
      · split at h
        · exact absurd h (by simp)
        · split at h
          · exact absurd h (by simp)
          · rw [Prod.mk.injEq] at h
            obtain ⟨h1, h2⟩ := h
            have he := Option.some_inj.mp h1
            subst h2
            rw [he]
            simp only [EFFICIENCY_ALERT_LOW, EFFICIENCY_ALERT_HIGH]
            by_cases h4 : e < 4
            · rw [if_pos h4]
              refine ⟨iff_of_true ⟨_, rfl, rfl⟩ h4, iff_of_false ?_ (by linarith),
                iff_of_false (by simp) ?_⟩
              · rintro ⟨a, ha, hty⟩
                cases Option.some_inj.mp ha
                simp at hty
              · rintro ⟨h', _⟩
                linarith
            · by_cases h20 : 20 < e
              · rw [if_neg h4, if_pos h20]
                refine ⟨iff_of_false ?_ h4, iff_of_true ⟨_, rfl, rfl⟩ h20,
                  iff_of_false (by simp) ?_⟩
                · rintro ⟨a, ha, hty⟩
                  cases Option.some_inj.mp ha
                  simp at hty
                · rintro ⟨_, h'⟩
                  linarith
              · rw [if_neg h4, if_neg h20]
                exact ⟨iff_of_false (by simp) h4, iff_of_false (by simp) h20,
                  iff_of_true rfl ⟨not_lt.mp h4, not_lt.mp h20⟩⟩
      · exact absurd h (by simp)
  · have h1 : get_car_last_update m20 "KCA542Q" = some ls20 := by decide
    have h2 : ls20.odometer.parseI = some 10000 := by decide
    have h3 : ls20.liters.parseF = some 20 := by decide
    rw [calculate_fuel_efficiency, h1]
    dsimp only
    rw [h2, h3]
    dsimp only
    norm_num [EFFICIENCY_ALERT_LOW, EFFICIENCY_ALERT_HIGH]
  · intro now fid st st1 record oid hcool happ
    unfold process_record
    rw [hcool]
    simp only [Bool.false_eq_true, if_false]
    rcases h2 : append_record now st1 record true with ⟨st2, b2, o2⟩
    rw [h2] at happ
    replace happ : b2 = true := happ
    subst happ
    dsimp only
    rcases h3 : process_record_eff now st2 record with ⟨effOpt, distOpt, st3⟩
    dsimp only
    refine ⟨rfl, ?_⟩
    have hr3 : st3.rows = st2.rows := by
      have hh := process_record_eff_rows now st2 record
      rw [h3] at hh
      exact hh
    have hr2 : st2.rows = st1.rows ++ [record] := by
      have hh := append_record_rows_of_success now st1 record true
      rw [h2] at hh
      exact hh rfl
    rw [hr3, hr2]
    exact List.mem_append_right _ (List.mem_singleton.mpr rfl)

/-- Witness for `claim5_alerts`: on the empty state the cooldown gate and
the append succeed for `c2Rec`, so the record is accepted and persisted. -/
theorem claim5_witness :
    (process_record 0 "id" emptySt c2Rec false).2 = true ∧
    c2Rec ∈ (process_record 0 "id" emptySt c2Rec false).1.rows :=
  claim5_alerts.2.2 0 "id" emptySt emptySt c2Rec none (by decide) (by decide)

lemma mem_vLitersErrs (d : FuelData) (e : ParseErr) (h : e ∈ vLitersErrs d) :
    ∃ l, d.liters = some (Sum.inl l) ∧
      ((e = .invalidLiters l ∧ l ≤ 0) ∨ (e = .warnHighLiters l ∧ ¬ l ≤ 0 ∧ 500 < l)) := by
  unfold vLitersErrs at h
  split at h
  · rename_i x lv heq
    refine ⟨lv, heq, ?_⟩
    split at h
    · rename_i hle
      simp at h
      exact Or.inl ⟨h, hle⟩
    · rename_i hle
      split at h
      · rename_i hgt
        simp at h
        exact Or.inr ⟨h, hle, hgt⟩
      · simp at h
  · simp at h

lemma mem_vAmountErrs (d : FuelData) (e : ParseErr) (h : e ∈ vAmountErrs d) :
    ∃ a, d.amount = some (Sum.inl a) ∧ e = .invalidAmount a ∧ a ≤ 0 := by
  unfold vAmountErrs at h
  split at h
  · rename_i x av heq
    split at h
    · rename_i hle
      simp at h
      exact ⟨av, heq, h, hle⟩
    · simp at h
  · simp at h

lemma mem_vTypeErrs (d : FuelData) (e : ParseErr) (h : e ∈ vTypeErrs d) :
    ∃ t, d.ftype = some t ∧ e = .unknownFuelType t ∧ t ∉ VALID_FUEL_TYPES := by
  unfold vTypeErrs at h
  split at h
  · rename_i tv heq
    split at h
    · simp at h
    · rename_i hnm
      simp at h
      exact ⟨tv, heq, h, hnm⟩
  · simp at h

lemma mem_vOdoErrs (d : FuelData) (e : ParseErr) (h : e ∈ vOdoErrs d) :
    ∃ o, d.odometer = some (Sum.inl o) ∧ e = .invalidOdometer o ∧ o ≤ 0 := by
  unfold vOdoErrs at h
  split at h
  · rename_i x ov heq
    split at h
    · rename_i hle
      simp at h
      exact ⟨ov, heq, h, hle⟩
    · simp at h
  · simp at h

lemma mem_vCarErrs (d : FuelData) (e : ParseErr) (h : e ∈ vCarErrs d) :
    ∃ p, d.car = some p ∧ e = .warnPlateFormat p := by
  unfold vCarErrs at h
  split at h
  · rename_i pv heq
    split at h
    · simp at h
    · simp at h
      exact ⟨pv, heq, h⟩
  · simp at h

set_option maxRecDepth 4000 in
/-- Claim C6, counterexample to the claim as stated: for the well-formed
message `msg600` whose liters value is 600, strict-mode `parse` returns
`None` — the liters warning lands in the same `errors` list that strict
mode rejects on — refuting "still returns the parsed record … in both
strict and lenient mode". -/
theorem claim6_counterexample :
    (parseData msg600).liters = some (Sum.inl 600) ∧
    parseFuel true defaultRequired msg600 = (none, [.warnHighLiters 600]) := by
  with_unfolding_all decide

set_option maxRecDepth 4000 in
/-- Claim C6 (amended): in lenient (default) mode, `parse` returns the
record whenever at least two fields were extracted, so a liters value
above 500 only adds a `Warning: unusually high liters` entry; in strict
mode, however, any non-empty error list — the liters warning included —
makes `parse` return `None` (see `claim6_counterexample`).  Among the
`_validate` messages the hard `Invalid` errors are exactly non-positive
liters, amount, or odometer; the >500 liters condition produces only the
warning entry. -/
theorem claim6_amended :
    (∀ (required : List String) (body : List Char),
      2 ≤ (parseData body).count →
      parseFuel false required body = (some (parseData body), parseErrors required body)) ∧
    (∀ (required : List String) (body : List Char),
      parseErrors required body ≠ [] →
      parseFuel true required body = (none, parseErrors required body)) ∧
    (∀ d l, d.liters = some (Sum.inl l) →
      ((ParseErr.warnHighLiters l ∈ validateData d ↔ ¬ l ≤ 0 ∧ 500 < l) ∧
       (ParseErr.invalidLiters l ∈ validateData d ↔ l ≤ 0))) ∧
    (∀ d l, ParseErr.invalidLiters l ∈ validateData d → l ≤ 0) ∧
    (∀ d a, ParseErr.invalidAmount a ∈ validateData d → a ≤ 0) ∧
    (∀ d o, ParseErr.invalidOdometer o ∈ validateData d → o ≤ 0) ∧
    parseFuel false defaultRequired msg600 =
      (some ⟨some "A B".toList, some "KCA 542Q".toList, some (Sum.inl 600),
        some (Sum.inl 9), some "DIESEL".toList, some (Sum.inl 5), some "X".toList⟩,
       [.warnHighLiters 600]) := by
  have hmemL : ∀ d l, ParseErr.invalidLiters l ∈ validateData d → l ≤ 0 := by
    intro d l h
    rcases List.mem_append.mp h with h | h
    rcases List.mem_append.mp h with h | h
    rcases List.mem_append.mp h with h | h
    rcases List.mem_append.mp h with h | h
    · obtain ⟨l', _, hc⟩ := mem_vLitersErrs d _ h
      rcases hc with ⟨he, hle⟩ | ⟨he, _⟩
      · cases he
        exact hle
      · cases he
    · obtain ⟨a, _, he, _⟩ := mem_vAmountErrs d _ h
      cases he
    · obtain ⟨t, _, he, _⟩ := mem_vTypeErrs d _ h
      cases he
    · obtain ⟨o, _, he, _⟩ := mem_vOdoErrs d _ h
      cases he
    · obtain ⟨p, _, he⟩ := mem_vCarErrs d _ h
      cases he
  refine ⟨?_, ?_, ?_, hmemL, ?_, ?_, ?_⟩
  · intro required body hc
    unfold parseFuel
    rw [if_neg (by simp), if_pos ⟨rfl, hc⟩]
  · intro required body he
    unfold parseFuel
    rw [if_pos ⟨rfl, he⟩]
  · intro d l hl
    constructor
    · constructor
      · intro h
        rcases List.mem_append.mp h with h | h
        rcases List.mem_append.mp h with h | h
        rcases List.mem_append.mp h with h | h
        rcases List.mem_append.mp h with h | h
        · obtain ⟨l', hl', hc⟩ := mem_vLitersErrs d _ h
          rw [hl] at hl'
          obtain rfl : l = l' := by
            injection hl' with h2
            injection h2 with h3
          rcases hc with ⟨he, _⟩ | ⟨he, hp, hg⟩
          · cases he
          · exact ⟨hp, hg⟩
        · obtain ⟨a, _, he, _⟩ := mem_vAmountErrs d _ h
          cases he
        · obtain ⟨t, _, he, _⟩ := mem_vTypeErrs d _ h
          cases he
        · obtain ⟨o, _, he, _⟩ := mem_vOdoErrs d _ h
          cases he
        · obtain ⟨p, _, he⟩ := mem_vCarErrs d _ h
          cases he
      · intro ⟨hp, hg⟩
        apply List.mem_append_left
        apply List.mem_append_left
        apply List.mem_append_left
        apply List.mem_append_left
        unfold vLitersErrs
        rw [hl]
        simp only [if_neg hp, if_pos hg]
        exact List.mem_singleton.mpr rfl
    · constructor
      · exact hmemL d l
      · intro hle
        apply List.mem_append_left
        apply List.mem_append_left
        apply List.mem_append_left
        apply List.mem_append_left
        unfold vLitersErrs
        rw [hl]
        simp only [if_pos hle]
        exact List.mem_singleton.mpr rfl
  · intro d a h
    rcases List.mem_append.mp h with h | h
    rcases List.mem_append.mp h with h | h
    rcases List.mem_append.mp h with h | h
    rcases List.mem_append.mp h with h | h
    · obtain ⟨l', _, hc⟩ := mem_vLitersErrs d _ h
      rcases hc with ⟨he, _⟩ | ⟨he, _⟩ <;> cases he
    · obtain ⟨a', ha, he, hle⟩ := mem_vAmountErrs d _ h
      cases he
      exact hle
    · obtain ⟨t, _, he, _⟩ := mem_vTypeErrs d _ h
      cases he
    · obtain ⟨o, _, he, _⟩ := mem_vOdoErrs d _ h
      cases he
    · obtain ⟨p, _, he⟩ := mem_vCarErrs d _ h
      cases he
  · intro d o h
    rcases List.mem_append.mp h with h | h
    rcases List.mem_append.mp h with h | h
    rcases List.mem_append.mp h with h | h
    rcases List.mem_append.mp h with h | h
    · obtain ⟨l', _, hc⟩ := mem_vLitersErrs d _ h
      rcases hc with ⟨he, _⟩ | ⟨he, _⟩ <;> cases he
    · obtain ⟨a, _, he, _⟩ := mem_vAmountErrs d _ h
      cases he
    · obtain ⟨t, _, he, _⟩ := mem_vTypeErrs d _ h
      cases he
    · obtain ⟨o', ho, he, hle⟩ := mem_vOdoErrs d _ h
      cases he
      exact hle
    · obtain ⟨p, _, he⟩ := mem_vCarErrs d _ h
      cases he
  · with_unfolding_all decide

set_option maxRecDepth 4000 in
/-- Witness for `claim6_amended` at a concrete input: lenient-mode parse
of `msg600` returns the record together with the warning. -/
theorem claim6_witness :
    parseFuel false defaultRequired msg600 =
      (some (parseData msg600), parseErrors defaultRequired msg600) :=
  claim6_amended.1 defaultRequired msg600 (by with_unfolding_all decide)

lemma cap_none_of_grpFree (r : Rx) (hr : grpFree r = true) :
    ∀ prev s o, o ∈ mAll r prev s → o.cap = none := by
  induction r with
  | eps =>
    intro prev s o ho
    simp [mAll] at ho
    rw [ho]
  | cc k =>
    intro prev s o ho
    cases s with
    | nil => simp [mAll] at ho
    | cons c cs =>
      simp only [mAll] at ho
      split at ho
      · simp only [List.mem_singleton] at ho
        rw [ho]
      · simp at ho
  | str lit =>
    intro prev s o ho
    simp only [mAll] at ho
    split at ho
    · simp only [List.mem_singleton] at ho
      rw [ho]
    · simp at ho
  | seq a b iha ihb =>
    simp only [grpFree, Bool.and_eq_true] at hr
    intro prev s o ho
    unfold mAll at ho
    simp only [List.mem_flatMap, List.mem_map] at ho
    obtain ⟨o1, h1, o2, h2, rfl⟩ := ho
    simp [ihb hr.2 _ _ _ h2, iha hr.1 _ _ _ h1, Option.or]
  | alt a b iha ihb =>
    simp only [grpFree, Bool.and_eq_true] at hr
    intro prev s o ho
    unfold mAll at ho
    rcases List.mem_append.mp ho with h | h
    · exact iha hr.1 _ _ _ h
    · exact ihb hr.2 _ _ _ h
  | opt a iha =>
    simp only [grpFree] at hr
    intro prev s o ho
    unfold mAll at ho
    rcases List.mem_append.mp ho with h | h
    · exact iha hr _ _ _ h
    · simp at h
      rw [h]
  | reps k lo hi lz =>
    intro prev s o ho
    unfold mAll at ho
    unfold repsOutcomes at ho
    simp only [List.mem_map] at ho
    obtain ⟨p, _, rfl⟩ := ho
    rfl
  | grp a iha => simp [grpFree] at hr
  | look a iha =>
    intro prev s o ho
    simp only [mAll] at ho
    split at ho
    · simp at ho
    · simp only [List.mem_singleton] at ho
      rw [ho]
  | eolM =>
    intro prev s o ho
    cases s with
    | nil =>
      simp [mAll] at ho
      rw [ho]
    | cons c cs =>
      simp only [mAll] at ho
      split at ho
      · simp only [List.mem_singleton] at ho
        rw [ho]
      · simp at ho
  | eolN =>
    intro prev s o ho
    simp only [mAll] at ho
    split at ho
    · simp only [List.mem_singleton] at ho
      rw [ho]
    · simp only [List.mem_singleton] at ho
      rw [ho]
    · simp at ho
  | wb =>
    intro prev s o ho
    simp only [mAll] at ho
    split at ho
    · simp only [List.mem_singleton] at ho
      rw [ho]
    · simp at ho

lemma capIn_of_grpFree (P : List Char → Prop) (r : Rx) (hr : grpFree r = true) :
    CapIn P r := by
  intro prev s o ho c hc
  rw [cap_none_of_grpFree r hr prev s o ho] at hc
  cases hc

lemma capIn_seq (P : List Char → Prop) (a b : Rx) (ha : CapIn P a) (hb : CapIn P b) :
    CapIn P (.seq a b) := by
  intro prev s o ho c hc
  unfold mAll at ho
  simp only [List.mem_flatMap, List.mem_map] at ho
  obtain ⟨o1, h1, o2, h2, rfl⟩ := ho
  simp only at hc
  cases ho2 : o2.cap with
  | some c2 =>
    rw [ho2] at hc
    simp [Option.or] at hc
    rw [hc] at ho2
    exact hb _ _ _ h2 _ ho2
  | none =>
    rw [ho2] at hc
    simp [Option.or] at hc
    exact ha _ _ _ h1 _ hc

lemma capIn_grp (P : List Char → Prop) (a : Rx)
    (ha : ∀ prev s o, o ∈ mAll a prev s → P o.eaten) : CapIn P (.grp a) := by
  intro prev s o ho c hc
  unfold mAll at ho
  simp only [List.mem_map] at ho
  obtain ⟨o1, h1, rfl⟩ := ho
  simp only [Option.some_inj] at hc
  rw [← hc]
  exact ha _ _ _ h1

lemma upperL_take_of_ciPfx (lit : List Char) :
    ∀ s, ciPfx lit s = true → upperL (s.take lit.length) = upperL lit := by
  induction lit with
  | nil => intro s _; simp [upperL]
  | cons a as ih =>
    intro s h
    cases s with
    | nil => simp [ciPfx] at h
    | cons b bs =>
      simp only [ciPfx, Bool.and_eq_true] at h
      obtain ⟨h1, h2⟩ := h
      simp only [List.length_cons, List.take_succ_cons, upperL, List.map_cons]
      have hb : b.toUpper = a.toUpper := by
        have := (beq_iff_eq).mp h1
        exact this.symm
      rw [hb]
      have := ih bs h2
      simp only [upperL] at this
      rw [this]

lemma eaten_str (lit : List Char) (prev : Option Char) (s : List Char) (o : MOut)
    (ho : o ∈ mAll (.str lit) prev s) : upperL o.eaten = upperL lit := by
  unfold mAll at ho
  split at ho
  · simp at ho
    rw [ho]
    exact upperL_take_of_ciPfx lit s (by assumption)
  · simp at ho

lemma eaten_fuelAlt (prev : Option Char) (s : List Char) (o : MOut)
    (ho : o ∈ mAll fuelAlt prev s) :
    ∃ tok ∈ fuelTokens, upperL o.eaten = tok := by
  unfold fuelAlt at ho
  unfold mAll at ho
  rcases List.mem_append.mp ho with h | h
  · exact ⟨"DIESEL".toList, by simp [fuelTokens], by
      have := eaten_str _ _ _ _ h
      simpa using this⟩
  unfold mAll at h
  rcases List.mem_append.mp h with h | h
  · exact ⟨"PETROL".toList, by simp [fuelTokens], by
      have := eaten_str _ _ _ _ h
      simpa using this⟩
  unfold mAll at h
  rcases List.mem_append.mp h with h | h
  · exact ⟨"SUPER".toList, by simp [fuelTokens], by
      have := eaten_str _ _ _ _ h
      simpa using this⟩
  unfold mAll at h
  rcases List.mem_append.mp h with h | h
  · -- V-?POWER
    unfold mAll at h
    simp only [List.mem_flatMap, List.mem_map] at h
    obtain ⟨o1, h1, o2, h2, rfl⟩ := h
    unfold mAll at h2
    simp only [List.mem_flatMap, List.mem_map] at h2
    obtain ⟨o3, h3, o4, h4, rfl⟩ := h2
    have hv := eaten_str _ _ _ _ h1
    have hp := eaten_str _ _ _ _ h4
    unfold mAll at h3
    rcases List.mem_append.mp h3 with h3 | h3
    · have hd := eaten_str _ _ _ _ h3
      refine ⟨"V-POWER".toList, by simp [fuelTokens], ?_⟩
      simp only [upperL, List.map_append] at hv hp hd ⊢
      rw [hv, hd, hp]
      rfl
    · simp at h3
      refine ⟨"VPOWER".toList, by simp [fuelTokens], ?_⟩
      simp only [upperL, List.map_append, h3] at hv hp ⊢
      rw [hv, hp]
      rfl
  unfold mAll at h
  rcases List.mem_append.mp h with h | h
  · exact ⟨"UNLEADED".toList, by simp [fuelTokens], by
      have := eaten_str _ _ _ _ h
      simpa using this⟩
  · exact ⟨"AGO".toList, by simp [fuelTokens], by
      have := eaten_str _ _ _ _ h
      simpa using this⟩

lemma capIn_typePats (p : Rx) (hp : p ∈ typePats) : CapIn TokP p := by
  have hgrp : CapIn TokP (.grp fuelAlt) :=
    capIn_grp TokP fuelAlt (fun prev s o ho => eaten_fuelAlt prev s o ho)
  unfold typePats at hp
  simp only [List.mem_cons, List.not_mem_nil, or_false] at hp
  rcases hp with rfl | rfl | rfl
  · unfold kwPat
    refine capIn_seq _ _ _ (capIn_of_grpFree _ _ rfl) ?_
    refine capIn_seq _ _ _ (capIn_of_grpFree _ _ rfl) ?_
    refine capIn_seq _ _ _ (capIn_of_grpFree _ _ rfl) ?_
    exact capIn_seq _ _ _ (capIn_of_grpFree _ _ rfl) hgrp
  · refine capIn_seq _ _ _ (capIn_of_grpFree _ _ rfl) ?_
    refine capIn_seq _ _ _ (capIn_of_grpFree _ _ rfl) ?_
    refine capIn_seq _ _ _ (capIn_of_grpFree _ _ rfl) ?_
    refine capIn_seq _ _ _ (capIn_of_grpFree _ _ rfl) ?_
    refine capIn_seq _ _ _ (capIn_of_grpFree _ _ rfl) ?_
    exact capIn_seq _ _ _ (capIn_of_grpFree _ _ rfl) hgrp
  · refine capIn_seq _ _ _ (capIn_of_grpFree _ _ rfl) ?_
    exact capIn_seq _ _ _ hgrp (capIn_of_grpFree _ _ rfl)

lemma searchAux_sound (p : Rx) (P : List Char → Prop) (hp : CapIn P p) :
    ∀ (s : List Char) (prev : Option Char) (cap : List Char),
      searchAux p prev s = some cap → cap = [] ∨ P cap := by
  intro s
  induction s with
  | nil =>
    intro prev cap h
    unfold searchAux at h
    cases hm : mAll p prev [] with
    | nil =>
      rw [hm] at h
      simp at h
    | cons o os =>
      rw [hm] at h
      have hcap : cap = o.cap.getD [] := (Option.some_inj.mp h).symm
      cases hoc : o.cap with
      | none =>
        left
        rw [hcap, hoc]
        rfl
      | some c =>
        right
        rw [hcap, hoc]
        exact hp prev [] o (by rw [hm]; exact List.mem_cons_self o os) c hoc
  | cons ch cs ih =>
    intro prev cap h
    unfold searchAux at h
    cases hm : mAll p prev (ch :: cs) with
    | nil =>
      rw [hm] at h
      exact ih (some ch) cap h
    | cons o os =>
      rw [hm] at h
      have hcap : cap = o.cap.getD [] := (Option.some_inj.mp h).symm
      cases hoc : o.cap with
      | none =>
        left
        rw [hcap, hoc]
        rfl
      | some c =>
        right
        rw [hcap, hoc]
        exact hp prev (ch :: cs) o (by rw [hm]; exact List.mem_cons_self o os) c hoc

lemma extractField_sound (P : List Char → Prop) :
    ∀ (pats : List Rx), (∀ p ∈ pats, CapIn P p) →
    ∀ (t v : List Char), extractField pats t = some v →
    ∃ cap, (cap = [] ∨ P cap) ∧ v = stripL cap := by
  intro pats
  induction pats with
  | nil =>
    intro _ t v h
    simp [extractField] at h
  | cons p ps ih =>
    intro hp t v h
    unfold extractField at h
    cases hs : reSearch p t with
    | some cap =>
      rw [hs] at h
      simp only [Option.some_inj] at h
      exact ⟨cap, searchAux_sound p P (hp p (by simp)) t none cap hs, h.symm⟩
    | none =>
      rw [hs] at h
      exact ih (fun q hq => hp q (by simp [hq])) t v h

lemma wsfree_of_upperL (cap tok : List Char)
    (htok : tok.all (fun c => !isPyWs c) = true) (h : upperL cap = tok) :
    ∀ x ∈ cap, isPyWs x = false := by
  intro x hx
  by_contra hws
  rw [Bool.not_eq_false] at hws
  have hxu : x.toUpper ∈ tok := by
    rw [← h]
    exact List.mem_map_of_mem _ hx
  have hall := List.all_eq_true.mp htok _ hxu
  have hup : isPyWs x.toUpper = true := by
    have hcases : ((((x = ' ' ∨ x = '\t') ∨ x = '\n') ∨ x = '\r') ∨ x = '\x0b') ∨ x = '\x0c' := by
      simpa [isPyWs] using hws
    rcases hcases with ((((rfl | rfl) | rfl) | rfl) | rfl) | rfl <;> decide
  rw [hup] at hall
  simp at hall

lemma dropWhile_ws_eq_self (l : List Char) (h : ∀ x ∈ l, isPyWs x = false) :
    l.dropWhile isPyWs = l := by
  cases l with
  | nil => rfl
  | cons c cs =>
    rw [List.dropWhile_cons_of_neg]
    simp [h c (by simp)]

lemma stripL_eq_self (l : List Char) (h : ∀ x ∈ l, isPyWs x = false) :
    stripL l = l := by
  unfold stripL
  rw [dropWhile_ws_eq_self l h,
    dropWhile_ws_eq_self l.reverse (fun x hx => h x (List.mem_reverse.mp hx)),
    List.reverse_reverse]

lemma cleanType_of_token (cap tok : List Char) (htok : tok ∈ fuelTokens)
    (hcap : upperL cap = tok) : cleanType cap ∈ CANONICAL_TYPES := by
  have hall : tok.all (fun c => !isPyWs c) = true := by
    fin_cases htok <;> decide
  have hstrip : stripL cap = cap :=
    stripL_eq_self cap (wsfree_of_upperL cap tok hall hcap)
  simp only [cleanType, hstrip, hcap]
  fin_cases htok <;> decide

lemma fieldVal_some (x : Option (List Char)) (v : List Char)
    (h : fieldVal x = some v) : x = some v ∧ v ≠ [] := by
  cases x with
  | none => simp [fieldVal] at h
  | some l =>
    by_cases hl : l = []
    · simp [fieldVal, hl] at h
    · simp only [fieldVal, if_neg hl, Option.some_inj] at h
      exact ⟨by rw [h], h ▸ hl⟩

lemma rawField_type_sound (body : List Char) (v : List Char)
    (h : rawField typePats body = some v) :
    ∃ cap, (cap = [] ∨ TokP cap) ∧ v = stripL cap := by
  unfold rawField getField at h
  cases h1 : extractField typePats (normNl body) with
  | some w =>
    rw [h1] at h
    simp only [Option.some_inj] at h
    rw [← h]
    exact extractField_sound TokP typePats (fun p hp => capIn_typePats p hp) _ _ h1
  | none =>
    rw [h1] at h
    exact extractField_sound TokP typePats (fun p hp => capIn_typePats p hp) _ _ h

lemma parseFuel_some (strict : Bool) (required : List String) (body : List Char)
    (d : FuelData) (h : (parseFuel strict required body).1 = some d) :
    d = parseData body := by
  unfold parseFuel at h
  simp only at h
  split at h
  · simp at h
  · split at h
    · simp only [Option.some_inj] at h
      exact h.symm
    · split at h
      · simp at h
      · simp only [Option.some_inj] at h
        exact h.symm

/-- Claim C9: `_clean_value('type', ·)` upper-cases and remaps the exact
strings `AGO` (to `DIESEL`) and `VPOWER` (to `V-POWER`), and every fuel
type the parser can extract lands in the canonical set
{DIESEL, PETROL, SUPER, V-POWER, UNLEADED} — but, contrary to the claim,
`'V POWER'` (with a space) is returned unchanged: the source's
`value.replace('-', '-')` replaces a hyphen by a hyphen and is a no-op,
so no space-to-hyphen normalization ever happens. -/
theorem claim9_normalization :
    cleanType "AGO".toList = "DIESEL".toList ∧
    cleanType "ago".toList = "DIESEL".toList ∧
    cleanType "VPOWER".toList = "V-POWER".toList ∧
    cleanType "vpower".toList = "V-POWER".toList ∧
    cleanType "V POWER".toList = "V POWER".toList ∧
    ¬ cleanType "V POWER".toList = "V-POWER".toList ∧
    (∀ (strict : Bool) (required : List String) (body : List Char)
        (d : FuelData) (t : List Char),
      (parseFuel strict required body).1 = some d → d.ftype = some t →
      t ∈ CANONICAL_TYPES) := by
  refine ⟨by decide, by decide, by decide, by decide, by decide, by decide, ?_⟩
  intro strict required body d t hd ht
  have hdd := parseFuel_some strict required body d hd
  subst hdd
  unfold parseData at ht
  simp only at ht
  cases hraw : fieldVal (rawField typePats body) with
  | none =>
    rw [hraw] at ht
    simp at ht
  | some v =>
    rw [hraw] at ht
    simp only [Option.map_some', Option.some_inj] at ht
    obtain ⟨hx, hne⟩ := fieldVal_some _ _ hraw
    obtain ⟨cap, hsound, hv⟩ := rawField_type_sound body v hx
    rcases hsound with rfl | ⟨tok, htok, hcap⟩
    · exact absurd hv hne
    · have hall : tok.all (fun c => !isPyWs c) = true := by
        fin_cases htok <;> decide
      have hstrip : stripL cap = cap :=
        stripL_eq_self cap (wsfree_of_upperL cap tok hall hcap)
      rw [hstrip] at hv
      subst hv
      rw [← ht]
      exact cleanType_of_token v tok htok hcap

lemma mAll_prevFree : ∀ (p : Rx), prevFree p = true →
    ∀ (prev prev' : Option Char) (s : List Char), mAll p prev s = mAll p prev' s := by
  intro p
  induction p with
  | eps => intro _ _ _ _; rfl
  | cc k => intro _ _ _ _; rfl
  | str lit => intro _ _ _ _; rfl
  | seq a b iha ihb =>
    intro hp prev prev' s
    simp only [prevFree, Bool.and_eq_true] at hp
    simp only [mAll]
    rw [iha hp.1 prev prev' s]
    have hf : (fun o : MOut => (mAll b (lastOr o.eaten prev) o.rem).map
        (fun o2 => (⟨o2.rem, o.eaten ++ o2.eaten, o2.cap.or o.cap⟩ : MOut)))
      = (fun o : MOut => (mAll b (lastOr o.eaten prev') o.rem).map
        (fun o2 => (⟨o2.rem, o.eaten ++ o2.eaten, o2.cap.or o.cap⟩ : MOut))) := by
      funext o
      rw [ihb hp.2 (lastOr o.eaten prev) (lastOr o.eaten prev') o.rem]
    rw [hf]
  | alt a b iha ihb =>
    intro hp prev prev' s
    simp only [prevFree, Bool.and_eq_true] at hp
    simp only [mAll]
    rw [iha hp.1 prev prev' s, ihb hp.2 prev prev' s]
  | opt a iha =>
    intro hp prev prev' s
    simp only [prevFree] at hp
    simp only [mAll]
    rw [iha hp prev prev' s]
  | reps k lo hi lz => intro _ _ _ _; rfl
  | grp a iha =>
    intro hp prev prev' s
    simp only [prevFree] at hp
    simp only [mAll]
    rw [iha hp prev prev' s]
  | look a iha =>
    intro hp prev prev' s
    simp only [prevFree] at hp
    simp only [mAll]
    rw [iha hp prev prev' s]
  | eolM => intro _ _ _ _; rfl
  | eolN => intro _ _ _ _; rfl
  | wb => intro hp; simp [prevFree] at hp

lemma searchAux_congr (p : Rx) (hp : prevFree p = true) (prev prev' : Option Char)
    (s : List Char) : searchAux p prev s = searchAux p prev' s := by
  induction s generalizing prev prev' with
  | nil =>
    simp only [searchAux]
    rw [mAll_prevFree p hp prev prev' []]
  | cons c cs ih =>
    simp only [searchAux]
    rw [mAll_prevFree p hp prev prev' (c :: cs)]

lemma ciPfx_false_of_winMismatch : ∀ (K w : List Char), winMismatch K w = true →
    ∀ t, ciPfx K (w ++ t) = false := by
  intro K
  induction K with
  | nil => intro w h; simp [winMismatch] at h
  | cons a K ih =>
    intro w h t
    cases w with
    | nil => simp [winMismatch] at h
    | cons b w' =>
      simp only [winMismatch, Bool.or_eq_true, Bool.not_eq_true'] at h
      rcases h with h | h
      · simp [ciPfx, h]
      · simp [ciPfx, ih w' h t]

lemma mAll_kw_nil (K : List Char) (b : Rx) (prev : Option Char) (s : List Char)
    (h : ciPfx K s = false) : mAll (.seq (.str K) b) prev s = [] := by
  simp [mAll, h]

lemma searchAux_skip (K : List Char) (b : Rx)
    (hpf : prevFree (.seq (.str K) b) = true) :
    ∀ (w t : List Char), lineBlocks K w = true → ∀ (prev prev' : Option Char),
      searchAux (.seq (.str K) b) prev (w ++ t) =
        searchAux (.seq (.str K) b) prev' t := by
  intro w
  induction w with
  | nil => intro t _ prev prev'; exact searchAux_congr _ hpf prev prev' t
  | cons c w' ih =>
    intro t hw prev prev'
    simp only [lineBlocks, Bool.and_eq_true] at hw
    have hback : ciPfx K ((c :: w') ++ t) = false :=
      ciPfx_false_of_winMismatch K (c :: w') hw.1 t
    have hnil : mAll (.seq (.str K) b) prev (c :: (w' ++ t)) = [] := by
      have h2 := mAll_kw_nil K b prev ((c :: w') ++ t) hback
      simpa using h2
    rw [List.cons_append]
    simp only [searchAux]
    rw [hnil]
    exact ih t hw.2 (some c) prev'

lemma searchAux_skipLines (K : List Char) (b : Rx)
    (hpf : prevFree (.seq (.str K) b) = true) :
    ∀ (P : List (List Char)) (t : List Char),
      (∀ l ∈ P, lineBlocks K (l ++ ['\n']) = true) →
      ∀ (prev prev' : Option Char),
      searchAux (.seq (.str K) b) prev (flatJoin P ++ t) =
        searchAux (.seq (.str K) b) prev' t := by
  intro P
  induction P with
  | nil => intro t _ prev prev'; exact searchAux_congr _ hpf prev prev' t
  | cons l P' ih =>
    intro t hP prev prev'
    have h1 : flatJoin (l :: P') ++ t = (l ++ ['\n']) ++ (flatJoin P' ++ t) := by
      simp [flatJoin]
    rw [h1, searchAux_skip K b hpf (l ++ ['\n']) (flatJoin P' ++ t)
      (hP l (List.mem_cons_self l P')) prev prev']
    exact ih t (fun x hx => hP x (List.mem_cons_of_mem l hx)) prev' prev'



lemma joinNl_two (l m : List Char) (ms : List (List Char)) :
    joinNl (l :: m :: ms) = l ++ '\n' :: joinNl (m :: ms) := rfl

lemma joinNl_decomp (l : List Char) (S : List (List Char)) :
    ∀ P : List (List Char), joinNl (P ++ l :: S) = flatJoin P ++ joinNl (l :: S) := by
  intro P
  induction P with
  | nil => simp [flatJoin]
  | cons p P' ih =>
    have h1 : joinNl (p :: (P' ++ l :: S)) = p ++ '\n' :: joinNl (P' ++ l :: S) := by
      cases P' with
      | nil => exact joinNl_two p l S
      | cons q Q => exact joinNl_two p q (Q ++ l :: S)
    rw [List.cons_append, h1, ih]
    simp [flatJoin]

lemma upperL_joinNl : ∀ L : List (List Char), upperL (joinNl L) = joinNl (L.map upperL) := by
  intro L
  induction L with
  | nil => rfl
  | cons l ls ih =>
    cases ls with
    | nil => simp [joinNl]
    | cons m ms =>
      have hnl : Char.toUpper '\n' = '\n' := by decide
      simp only [List.map_cons, joinNl_two, upperL, List.map_append]
      simp only [upperL] at ih
      simp [ih, hnl, upperL]

lemma map_upperL_id : ∀ L : List (List Char), (∀ l ∈ L, upperL l = l) → L.map upperL = L := by
  intro L
  induction L with
  | nil => intro _; rfl
  | cons l ls ih =>
    intro h
    simp [h l (List.mem_cons_self l ls), ih (fun x hx => h x (List.mem_cons_of_mem l hx))]

lemma dropWhile_of_headNW (l : List Char) (h : headNW l = true) :
    l.dropWhile isPyWs = l := by
  cases l with
  | nil => simp [headNW] at h
  | cons c cs =>
    simp only [headNW, Bool.not_eq_true'] at h
    simp [List.dropWhile_cons, h]

lemma headNW_joinNl : ∀ L : List (List Char), L ≠ [] → (∀ l ∈ L, headNW l = true) →
    headNW (joinNl L) = true := by
  intro L hne h
  cases L with
  | nil => exact absurd rfl hne
  | cons l ls =>
    have hl := h l (List.mem_cons_self l ls)
    cases ls with
    | nil => exact hl
    | cons m ms =>
      rw [joinNl_two]
      cases l with
      | nil => simp [headNW] at hl
      | cons c cs => simpa [headNW] using hl

lemma headNW_rev_joinNl : ∀ L : List (List Char), L ≠ [] →
    (∀ l ∈ L, headNW l.reverse = true) → headNW (joinNl L).reverse = true := by
  intro L
  induction L with
  | nil => intro h _; exact absurd rfl h
  | cons l ls ih =>
    intro _ h
    cases ls with
    | nil => exact h l (List.mem_cons_self l [])
    | cons m ms =>
      have hrec := ih (by simp) (fun x hx => h x (List.mem_cons_of_mem l hx))
      cases hj : (joinNl (m :: ms)).reverse with
      | nil => rw [hj] at hrec; simp [headNW] at hrec
      | cons c cs =>
        rw [hj] at hrec
        rw [joinNl_two, List.reverse_append, List.reverse_cons, List.append_assoc,
          List.singleton_append, hj]
        simpa [headNW] using hrec

lemma stripL_joinNl (L : List (List Char)) (hne : L ≠ [])
    (hh : ∀ l ∈ L, headNW l = true) (hr : ∀ l ∈ L, headNW l.reverse = true) :
    stripL (joinNl L) = joinNl L := by
  unfold stripL
  rw [dropWhile_of_headNW _ (headNW_joinNl L hne hh),
    dropWhile_of_headNW _ (headNW_rev_joinNl L hne hr), List.reverse_reverse]

lemma normNl_joinNl (sep : Char) (L : List (List Char)) (hL : L.Perm (canonLines sep))
    (hup : ∀ l ∈ canonLines sep, upperL l = l)
    (hhead : ∀ l ∈ canonLines sep, headNW l = true)
    (hrev : ∀ l ∈ canonLines sep, headNW l.reverse = true) :
    normNl (joinNl L) = joinNl L := by
  have hmem : ∀ l ∈ L, l ∈ canonLines sep := fun l hl => hL.mem_iff.1 hl
  have hne : L ≠ [] := by
    intro h
    subst h
    have h2 := hL.length_eq
    simp [canonLines] at h2
  have h1 : upperL (joinNl L) = joinNl L := by
    rw [upperL_joinNl, map_upperL_id L (fun l hl => hup l (hmem l hl))]
  unfold normNl
  rw [h1]
  exact stripL_joinNl L hne (fun l hl => hhead l (hmem l hl)) (fun l hl => hrev l (hmem l hl))



lemma rawField_canon (pats rest : List Rx) (K : List Char) (b : Rx)
    (raw : List Char) (sep : Char) (L : List (List Char)) (lineF : List Char)
    (hpats : pats = .seq (.str K) b :: rest)
    (hpf : prevFree (.seq (.str K) b) = true)
    (hL : L.Perm (canonLines sep))
    (hlf : lineF ∈ canonLines sep)
    (hnodup : (canonLines sep).Nodup)
    (hblocks : ∀ l ∈ canonLines sep, l = lineF ∨ lineBlocks K (l ++ ['\n']) = true)
    (hup : ∀ l ∈ canonLines sep, upperL l = l)
    (hhead : ∀ l ∈ canonLines sep, headNW l = true)
    (hrev : ∀ l ∈ canonLines sep, headNW l.reverse = true)
    (hmatch : ∀ t : List Char, (t = [] ∨ ∃ u, t = '\n' :: u) → ∀ prev : Option Char,
      searchAux (.seq (.str K) b) prev (lineF ++ t) = some raw)
    (hstrip : stripL raw = raw) :
    rawField pats (joinNl L) = some raw := by
  have hmemL : lineF ∈ L := hL.mem_iff.2 hlf
  obtain ⟨P, S, hPS⟩ := List.append_of_mem hmemL
  have hnodupL : L.Nodup := hL.nodup_iff.2 hnodup
  have hnotP : lineF ∉ P := by
    rw [hPS, List.nodup_append] at hnodupL
    exact fun hmem => hnodupL.2.2 hmem (List.mem_cons_self _ _)
  have hPmem : ∀ l ∈ P, lineBlocks K (l ++ ['\n']) = true := by
    intro l hl
    have hlc : l ∈ canonLines sep :=
      hL.mem_iff.1 (by rw [hPS]; exact List.mem_append_left _ hl)
    rcases hblocks l hlc with heq | hb
    · exact absurd (heq ▸ hl) hnotP
    · exact hb
  have hsearch : reSearch (.seq (.str K) b) (joinNl L) = some raw := by
    rw [hPS, joinNl_decomp]
    unfold reSearch
    have ht : joinNl (lineF :: S) = lineF ++
        (match S with | [] => ([] : List Char) | m :: ms => '\n' :: joinNl (m :: ms)) := by
      cases S with
      | nil => simp [joinNl]
      | cons m ms => exact joinNl_two lineF m ms
    rw [ht, searchAux_skipLines K b hpf P _ hPmem none none]
    apply hmatch
    cases S with
    | nil => left; rfl
    | cons m ms => right; exact ⟨joinNl (m :: ms), rfl⟩
  have hext : extractField (.seq (.str K) b :: rest) (joinNl L) = some (stripL raw) := by
    unfold extractField
    rw [hsearch]
  unfold rawField getField
  rw [normNl_joinNl sep L hL hup hhead hrev, hpats, hext, hstrip]

lemma rawField_canon_driver (sep : Char) (hsep : sep = ':' ∨ sep = '-' ∨ sep = '=')
    (L : List (List Char)) (hL : L.Perm (canonLines sep)) :
    rawField driverPats (joinNl L) = some "JOHN KAMAU".toList := by
  rcases hsep with rfl | rfl | rfl
  · refine rawField_canon driverPats _ _ _ _ _ L (canonLine "DRIVER" ':' "JOHN KAMAU")
      rfl (by decide) hL (by decide) (by decide) (by decide) (by decide) (by decide)
      (by decide) ?_ (by decide)
    intro t ht prev
    rcases ht with rfl | ⟨u, rfl⟩ <;>
      simp [searchAux, mAll, kwPat, lits, ws0, sep1, lazyDotPlus, stopDriver, canonLine,
        repsOutcomes, repSplits, matchC, ciPfx, ciEq, wbHolds, lastOr, isPyWs]
  · refine rawField_canon driverPats _ _ _ _ _ L (canonLine "DRIVER" '-' "JOHN KAMAU")
      rfl (by decide) hL (by decide) (by decide) (by decide) (by decide) (by decide)
      (by decide) ?_ (by decide)
    intro t ht prev
    rcases ht with rfl | ⟨u, rfl⟩ <;>
      simp [searchAux, mAll, kwPat, lits, ws0, sep1, lazyDotPlus, stopDriver, canonLine,
        repsOutcomes, repSplits, matchC, ciPfx, ciEq, wbHolds, lastOr, isPyWs]
  · refine rawField_canon driverPats _ _ _ _ _ L (canonLine "DRIVER" '=' "JOHN KAMAU")
      rfl (by decide) hL (by decide) (by decide) (by decide) (by decide) (by decide)
      (by decide) ?_ (by decide)
    intro t ht prev
    rcases ht with rfl | ⟨u, rfl⟩ <;>
      simp [searchAux, mAll, kwPat, lits, ws0, sep1, lazyDotPlus, stopDriver, canonLine,
        repsOutcomes, repSplits, matchC, ciPfx, ciEq, wbHolds, lastOr, isPyWs]



lemma rawField_canon_car (sep : Char) (hsep : sep = ':' ∨ sep = '-' ∨ sep = '=')
    (L : List (List Char)) (hL : L.Perm (canonLines sep)) :
    rawField carPats (joinNl L) = some "KCA 542Q".toList := by
  rcases hsep with rfl | rfl | rfl
  · refine rawField_canon carPats _ _ _ _ _ L (canonLine "CAR" ':' "KCA 542Q")
      rfl (by decide) hL (by decide) (by decide) (by decide) (by decide) (by decide)
      (by decide) ?_ (by decide)
    intro t ht prev
    rcases ht with rfl | ⟨u, rfl⟩ <;>
      simp [searchAux, mAll, kwPat, lits, ws0, sep1, lazyDotPlus, stopDriver, stopDept,
        plateGrp, stopCar1, numPlus, optKsh, fuelAlt, canonLine,
        repsOutcomes, repSplits, matchC, ciPfx, ciEq, wbHolds, lastOr, isPyWs]
  · refine rawField_canon carPats _ _ _ _ _ L (canonLine "CAR" '-' "KCA 542Q")
      rfl (by decide) hL (by decide) (by decide) (by decide) (by decide) (by decide)
      (by decide) ?_ (by decide)
    intro t ht prev
    rcases ht with rfl | ⟨u, rfl⟩ <;>
      simp [searchAux, mAll, kwPat, lits, ws0, sep1, lazyDotPlus, stopDriver, stopDept,
        plateGrp, stopCar1, numPlus, optKsh, fuelAlt, canonLine,
        repsOutcomes, repSplits, matchC, ciPfx, ciEq, wbHolds, lastOr, isPyWs]
  · refine rawField_canon carPats _ _ _ _ _ L (canonLine "CAR" '=' "KCA 542Q")
      rfl (by decide) hL (by decide) (by decide) (by decide) (by decide) (by decide)
      (by decide) ?_ (by decide)
    intro t ht prev
    rcases ht with rfl | ⟨u, rfl⟩ <;>
      simp [searchAux, mAll, kwPat, lits, ws0, sep1, lazyDotPlus, stopDriver, stopDept,
        plateGrp, stopCar1, numPlus, optKsh, fuelAlt, canonLine,
        repsOutcomes, repSplits, matchC, ciPfx, ciEq, wbHolds, lastOr, isPyWs]

lemma rawField_canon_liters (sep : Char) (hsep : sep = ':' ∨ sep = '-' ∨ sep = '=')
    (L : List (List Char)) (hL : L.Perm (canonLines sep)) :
    rawField litersPats (joinNl L) = some "45.5".toList := by
  rcases hsep with rfl | rfl | rfl
  · refine rawField_canon litersPats _ _ _ _ _ L (canonLine "LITERS" ':' "45.5")
      rfl (by decide) hL (by decide) (by decide) (by decide) (by decide) (by decide)
      (by decide) ?_ (by decide)
    intro t ht prev
    rcases ht with rfl | ⟨u, rfl⟩ <;>
      simp [searchAux, mAll, kwPat, lits, ws0, sep1, lazyDotPlus, stopDriver, stopDept,
        plateGrp, stopCar1, numPlus, optKsh, fuelAlt, canonLine,
        repsOutcomes, repSplits, matchC, ciPfx, ciEq, wbHolds, lastOr, isPyWs]
  · refine rawField_canon litersPats _ _ _ _ _ L (canonLine "LITERS" '-' "45.5")
      rfl (by decide) hL (by decide) (by decide) (by decide) (by decide) (by decide)
      (by decide) ?_ (by decide)
    intro t ht prev
    rcases ht with rfl | ⟨u, rfl⟩ <;>
      simp [searchAux, mAll, kwPat, lits, ws0, sep1, lazyDotPlus, stopDriver, stopDept,
        plateGrp, stopCar1, numPlus, optKsh, fuelAlt, canonLine,
        repsOutcomes, repSplits, matchC, ciPfx, ciEq, wbHolds, lastOr, isPyWs]
  · refine rawField_canon litersPats _ _ _ _ _ L (canonLine "LITERS" '=' "45.5")
      rfl (by decide) hL (by decide) (by decide) (by decide) (by decide) (by decide)
      (by decide) ?_ (by decide)
    intro t ht prev
    rcases ht with rfl | ⟨u, rfl⟩ <;>
      simp [searchAux, mAll, kwPat, lits, ws0, sep1, lazyDotPlus, stopDriver, stopDept,
        plateGrp, stopCar1, numPlus, optKsh, fuelAlt, canonLine,
        repsOutcomes, repSplits, matchC, ciPfx, ciEq, wbHolds, lastOr, isPyWs]

lemma rawField_canon_amount (sep : Char) (hsep : sep = ':' ∨ sep = '-' ∨ sep = '=')
    (L : List (List Char)) (hL : L.Perm (canonLines sep)) :
    rawField amountPats (joinNl L) = some "9500".toList := by
  rcases hsep with rfl | rfl | rfl
  · refine rawField_canon amountPats _ _ _ _ _ L (canonLine "AMOUNT" ':' "9500")
      rfl (by decide) hL (by decide) (by decide) (by decide) (by decide) (by decide)
      (by decide) ?_ (by decide)
    intro t ht prev
    rcases ht with rfl | ⟨u, rfl⟩ <;>
      simp [searchAux, mAll, kwPat, lits, ws0, sep1, lazyDotPlus, stopDriver, stopDept,
        plateGrp, stopCar1, numPlus, optKsh, fuelAlt, canonLine,
        repsOutcomes, repSplits, matchC, ciPfx, ciEq, wbHolds, lastOr, isPyWs]
  · refine rawField_canon amountPats _ _ _ _ _ L (canonLine "AMOUNT" '-' "9500")
      rfl (by decide) hL (by decide) (by decide) (by decide) (by decide) (by decide)
      (by decide) ?_ (by decide)
    intro t ht prev
    rcases ht with rfl | ⟨u, rfl⟩ <;>
      simp [searchAux, mAll, kwPat, lits, ws0, sep1, lazyDotPlus, stopDriver, stopDept,
        plateGrp, stopCar1, numPlus, optKsh, fuelAlt, canonLine,
        repsOutcomes, repSplits, matchC, ciPfx, ciEq, wbHolds, lastOr, isPyWs]
  · refine rawField_canon amountPats _ _ _ _ _ L (canonLine "AMOUNT" '=' "9500")
      rfl (by decide) hL (by decide) (by decide) (by decide) (by decide) (by decide)
      (by decide) ?_ (by decide)
    intro t ht prev
    rcases ht with rfl | ⟨u, rfl⟩ <;>
      simp [searchAux, mAll, kwPat, lits, ws0, sep1, lazyDotPlus, stopDriver, stopDept,
        plateGrp, stopCar1, numPlus, optKsh, fuelAlt, canonLine,
        repsOutcomes, repSplits, matchC, ciPfx, ciEq, wbHolds, lastOr, isPyWs]

lemma rawField_canon_tfield (sep : Char) (hsep : sep = ':' ∨ sep = '-' ∨ sep = '=')
    (L : List (List Char)) (hL : L.Perm (canonLines sep)) :
    rawField typePats (joinNl L) = some "DIESEL".toList := by
  rcases hsep with rfl | rfl | rfl
  · refine rawField_canon typePats _ _ _ _ _ L (canonLine "TYPE" ':' "DIESEL")
      rfl (by decide) hL (by decide) (by decide) (by decide) (by decide) (by decide)
      (by decide) ?_ (by decide)
    intro t ht prev
    rcases ht with rfl | ⟨u, rfl⟩ <;>
      simp [searchAux, mAll, kwPat, lits, ws0, sep1, lazyDotPlus, stopDriver, stopDept,
        plateGrp, stopCar1, numPlus, optKsh, fuelAlt, canonLine,
        repsOutcomes, repSplits, matchC, ciPfx, ciEq, wbHolds, lastOr, isPyWs]
  · refine rawField_canon typePats _ _ _ _ _ L (canonLine "TYPE" '-' "DIESEL")
      rfl (by decide) hL (by decide) (by decide) (by decide) (by decide) (by decide)
      (by decide) ?_ (by decide)
    intro t ht prev
    rcases ht with rfl | ⟨u, rfl⟩ <;>
      simp [searchAux, mAll, kwPat, lits, ws0, sep1, lazyDotPlus, stopDriver, stopDept,
        plateGrp, stopCar1, numPlus, optKsh, fuelAlt, canonLine,
        repsOutcomes, repSplits, matchC, ciPfx, ciEq, wbHolds, lastOr, isPyWs]
  · refine rawField_canon typePats _ _ _ _ _ L (canonLine "TYPE" '=' "DIESEL")
      rfl (by decide) hL (by decide) (by decide) (by decide) (by decide) (by decide)
      (by decide) ?_ (by decide)
    intro t ht prev
    rcases ht with rfl | ⟨u, rfl⟩ <;>
      simp [searchAux, mAll, kwPat, lits, ws0, sep1, lazyDotPlus, stopDriver, stopDept,
        plateGrp, stopCar1, numPlus, optKsh, fuelAlt, canonLine,
        repsOutcomes, repSplits, matchC, ciPfx, ciEq, wbHolds, lastOr, isPyWs]

lemma rawField_canon_odometer (sep : Char) (hsep : sep = ':' ∨ sep = '-' ∨ sep = '=')
    (L : List (List Char)) (hL : L.Perm (canonLines sep)) :
    rawField odometerPats (joinNl L) = some "125430".toList := by
  rcases hsep with rfl | rfl | rfl
  · refine rawField_canon odometerPats _ _ _ _ _ L (canonLine "ODOMETER" ':' "125430")
      rfl (by decide) hL (by decide) (by decide) (by decide) (by decide) (by decide)
      (by decide) ?_ (by decide)
    intro t ht prev
    rcases ht with rfl | ⟨u, rfl⟩ <;>
      simp [searchAux, mAll, kwPat, lits, ws0, sep1, lazyDotPlus, stopDriver, stopDept,
        plateGrp, stopCar1, numPlus, optKsh, fuelAlt, canonLine,
        repsOutcomes, repSplits, matchC, ciPfx, ciEq, wbHolds, lastOr, isPyWs]
  · refine rawField_canon odometerPats _ _ _ _ _ L (canonLine "ODOMETER" '-' "125430")
      rfl (by decide) hL (by decide) (by decide) (by decide) (by decide) (by decide)
      (by decide) ?_ (by decide)
    intro t ht prev
    rcases ht with rfl | ⟨u, rfl⟩ <;>
      simp [searchAux, mAll, kwPat, lits, ws0, sep1, lazyDotPlus, stopDriver, stopDept,
        plateGrp, stopCar1, numPlus, optKsh, fuelAlt, canonLine,
        repsOutcomes, repSplits, matchC, ciPfx, ciEq, wbHolds, lastOr, isPyWs]
  · refine rawField_canon odometerPats _ _ _ _ _ L (canonLine "ODOMETER" '=' "125430")
      rfl (by decide) hL (by decide) (by decide) (by decide) (by decide) (by decide)
      (by decide) ?_ (by decide)
    intro t ht prev
    rcases ht with rfl | ⟨u, rfl⟩ <;>
      simp [searchAux, mAll, kwPat, lits, ws0, sep1, lazyDotPlus, stopDriver, stopDept,
        plateGrp, stopCar1, numPlus, optKsh, fuelAlt, canonLine,
        repsOutcomes, repSplits, matchC, ciPfx, ciEq, wbHolds, lastOr, isPyWs]

lemma rawField_canon_department (sep : Char) (hsep : sep = ':' ∨ sep = '-' ∨ sep = '=')
    (L : List (List Char)) (hL : L.Perm (canonLines sep)) :
    rawField departmentPats (joinNl L) = some "LOGISTICS".toList := by
  rcases hsep with rfl | rfl | rfl
  · refine rawField_canon departmentPats _ _ _ _ _ L (canonLine "DEPARTMENT" ':' "LOGISTICS")
      rfl (by decide) hL (by decide) (by decide) (by decide) (by decide) (by decide)
      (by decide) ?_ (by decide)
    intro t ht prev
    rcases ht with rfl | ⟨u, rfl⟩ <;>
      simp [searchAux, mAll, kwPat, lits, ws0, sep1, lazyDotPlus, stopDriver, stopDept,
        plateGrp, stopCar1, numPlus, optKsh, fuelAlt, canonLine,
        repsOutcomes, repSplits, matchC, ciPfx, ciEq, wbHolds, lastOr, isPyWs]
  · refine rawField_canon departmentPats _ _ _ _ _ L (canonLine "DEPARTMENT" '-' "LOGISTICS")
      rfl (by decide) hL (by decide) (by decide) (by decide) (by decide) (by decide)
      (by decide) ?_ (by decide)
    intro t ht prev
    rcases ht with rfl | ⟨u, rfl⟩ <;>
      simp [searchAux, mAll, kwPat, lits, ws0, sep1, lazyDotPlus, stopDriver, stopDept,
        plateGrp, stopCar1, numPlus, optKsh, fuelAlt, canonLine,
        repsOutcomes, repSplits, matchC, ciPfx, ciEq, wbHolds, lastOr, isPyWs]
  · refine rawField_canon departmentPats _ _ _ _ _ L (canonLine "DEPARTMENT" '=' "LOGISTICS")
      rfl (by decide) hL (by decide) (by decide) (by decide) (by decide) (by decide)
      (by decide) ?_ (by decide)
    intro t ht prev
    rcases ht with rfl | ⟨u, rfl⟩ <;>
      simp [searchAux, mAll, kwPat, lits, ws0, sep1, lazyDotPlus, stopDriver, stopDept,
        plateGrp, stopCar1, numPlus, optKsh, fuelAlt, canonLine,
        repsOutcomes, repSplits, matchC, ciPfx, ciEq, wbHolds, lastOr, isPyWs]



set_option maxRecDepth 4000 in
lemma parseData_canon (sep : Char) (hsep : sep = ':' ∨ sep = '-' ∨ sep = '=')
    (L : List (List Char)) (hL : L.Perm (canonLines sep)) :
    parseData (joinNl L) = canonData := by
  unfold parseData
  rw [rawField_canon_driver sep hsep L hL, rawField_canon_car sep hsep L hL,
    rawField_canon_liters sep hsep L hL, rawField_canon_amount sep hsep L hL,
    rawField_canon_tfield sep hsep L hL, rawField_canon_odometer sep hsep L hL,
    rawField_canon_department sep hsep L hL]
  have hfv : ∀ raw : List Char, ¬ raw = [] → fieldVal (some raw) = some raw := by
    intro raw h
    simp [fieldVal, h]
  rw [hfv "JOHN KAMAU".toList (by decide), hfv "KCA 542Q".toList (by decide),
    hfv "45.5".toList (by decide), hfv "9500".toList (by decide),
    hfv "DIESEL".toList (by decide), hfv "125430".toList (by decide),
    hfv "LOGISTICS".toList (by decide)]
  have h1 : cleanDriver "JOHN KAMAU".toList = "John Kamau".toList := by decide
  have h2 : cleanCar "KCA 542Q".toList = "KCA 542Q".toList := by decide
  have h3 : cleanNum "45.5".toList = Sum.inl ((91 : ℚ) / 2) := by
    with_unfolding_all decide
  have hpf4 : pyFloatOpt "9500".toList = some (9500 : ℚ) := by
    have e1 : "9500".toList.takeWhile (fun c => c != '.') = "9500".toList := by decide
    have e2 : ("9500".toList.dropWhile (fun c => c != '.')).drop 1 = ([] : List Char) := by
      decide
    have e3 : digitsVal "9500".toList = 9500 := by decide
    have e4 : digitsVal [] = 0 := rfl
    unfold pyFloatOpt
    rw [if_pos (by decide), e1, e2, e3, e4]
    norm_num
  have h4 : cleanNum "9500".toList = Sum.inl (9500 : ℚ) := by
    have est : (stripL "9500".toList).filter (fun c => c != ',') = "9500".toList := by decide
    unfold cleanNum
    rw [est, hpf4]
  have h5 : cleanType "DIESEL".toList = "DIESEL".toList := by decide
  have hpf6 : pyFloatOpt "125430".toList = some (125430 : ℚ) := by
    have e1 : "125430".toList.takeWhile (fun c => c != '.') = "125430".toList := by decide
    have e2 : ("125430".toList.dropWhile (fun c => c != '.')).drop 1 = ([] : List Char) := by
      decide
    have e3 : digitsVal "125430".toList = 125430 := by decide
    have e4 : digitsVal [] = 0 := rfl
    unfold pyFloatOpt
    rw [if_pos (by decide), e1, e2, e3, e4]
    norm_num
  have h6 : cleanOdometer "125430".toList = Sum.inl (125430 : Int) := by
    have est : (stripL "125430".toList).filter (fun c => c != ',') = "125430".toList := by
      decide
    unfold cleanOdometer
    rw [est, hpf6]
    show Sum.inl (pyInt (125430 : ℚ)) = (Sum.inl 125430 : Sum Int (List Char))
    unfold pyInt
    rw [if_pos (by norm_num)]
    norm_num
  have h7 : cleanDepartment "LOGISTICS".toList = "LOGISTICS".toList := by decide
  simp only [Option.map_some', h1, h2, h3, h4, h5, h6, h7]
  rfl

lemma missingErr_some (f : String) (required : List String) (raw : List Char)
    (h : ¬ raw = []) : missingErr f required (some raw) = [] := by
  simp [missingErr, fieldVal, h]

set_option maxRecDepth 4000 in
lemma parseErrors_canon (sep : Char) (hsep : sep = ':' ∨ sep = '-' ∨ sep = '=')
    (L : List (List Char)) (hL : L.Perm (canonLines sep)) (required : List String) :
    parseErrors required (joinNl L) = [] := by
  unfold parseErrors
  rw [rawField_canon_driver sep hsep L hL, rawField_canon_car sep hsep L hL,
    rawField_canon_liters sep hsep L hL, rawField_canon_amount sep hsep L hL,
    rawField_canon_tfield sep hsep L hL, rawField_canon_odometer sep hsep L hL,
    rawField_canon_department sep hsep L hL, parseData_canon sep hsep L hL]
  rw [missingErr_some _ _ _ (by decide), missingErr_some _ _ _ (by decide),
    missingErr_some _ _ _ (by decide), missingErr_some _ _ _ (by decide),
    missingErr_some _ _ _ (by decide), missingErr_some _ _ _ (by decide),
    missingErr_some _ _ _ (by decide)]
  have hl : vLitersErrs canonData = [] := by
    unfold vLitersErrs canonData
    dsimp only
    rw [if_neg (by norm_num), if_neg (by norm_num)]
  have ha : vAmountErrs canonData = [] := by
    unfold vAmountErrs canonData
    dsimp only
    rw [if_neg (by norm_num)]
  have htp : vTypeErrs canonData = [] := by decide
  have ho : vOdoErrs canonData = [] := by
    unfold vOdoErrs canonData
    dsimp only
    rw [if_neg (by norm_num)]
  have hc : vCarErrs canonData = [] := by decide
  unfold validateData
  rw [hl, ha, htp, ho, hc]
  rfl

lemma parseFuel_upper_congr (strict : Bool) (required : List String) (b1 b2 : List Char)
    (h : upperL b1 = upperL b2) :
    parseFuel strict required b1 = parseFuel strict required b2 := by
  have h1 : normNl b1 = normNl b2 := by unfold normNl; rw [h]
  have h2 : normCollapsed b1 = normCollapsed b2 := by unfold normCollapsed; rw [h]
  have hr : ∀ pats, rawField pats b1 = rawField pats b2 := by
    intro pats; unfold rawField; rw [h1, h2]
  unfold parseFuel parseErrors parseData
  simp only [hr]

set_option maxRecDepth 4000 in
/-- C8: parsing is insensitive to letter case (it depends on the message
only through its upper-casing), and for every permutation of the seven
canonical field lines, with any of the separators colon, dash or equals,
`parse` extracts all seven fields with the same cleaned values and no
errors, in lenient and in strict mode alike. -/
theorem claim8_permutation :
    (∀ (strict : Bool) (required : List String) (b1 b2 : List Char),
        upperL b1 = upperL b2 →
        parseFuel strict required b1 = parseFuel strict required b2) ∧
    (∀ sep : Char, (sep = ':' ∨ sep = '-' ∨ sep = '=') →
      ∀ L : List (List Char), L.Perm (canonLines sep) → ∀ strict : Bool,
        parseFuel strict defaultRequired (joinNl L) = (some canonData, [])) := by
  constructor
  · exact parseFuel_upper_congr
  · intro sep hsep L hL strict
    have hd := parseData_canon sep hsep L hL
    have he := parseErrors_canon sep hsep L hL defaultRequired
    simp only [parseFuel]
    rw [hd, he]
    cases strict <;> simp [FuelData.count, canonData, defaultRequired]
